import Mathlib

/-!
# Brisko-ai client script (`src/assets/main.js`)

A shallow embedding of the page script and a verification of its behaviour contract.

* JavaScript strings are lists of UTF-16 code units, so that `length`, `trim` and the
  regular expression see exactly what the engine sees.
* The regular expression literal of `validateEmail` is kept as a syntax tree and run by a
  backtracking matcher that follows `RegExp.prototype.test`.
* The contact form is a tree of elements: controls matched by `input, textarea`, elements
  carrying the class `form-error`, buttons, and any other element with its children.
  Elements carrying `form-error` are leaves and only controls carry an `id`; documents
  outside this class are not covered.
* A method that can raise returns an `Outcome`, which keeps the state reached when the
  exception was raised: mutations made before a `TypeError` stay in the document.
-/

namespace Brisko

/-! ## JavaScript values -/

/-- Result of running a method: it returns a value, or raises with the state reached so far. -/
inductive Outcome (σ : Type) (α : Type) where
  | done (a : α) (s : σ) : Outcome σ α
  | threw (e : String) (s : σ) : Outcome σ α
deriving DecidableEq, Repr

/-- State left behind by a method, whether it returned or raised. -/
def Outcome.state {σ α : Type} : Outcome σ α → σ
  | .done _ s => s
  | .threw _ s => s

/-- Returned value, `none` when the method raised. -/
def Outcome.value? {σ α : Type} : Outcome σ α → Option α
  | .done a _ => some a
  | .threw _ _ => none

/-- Raised exception, `none` when the method returned. -/
def Outcome.error? {σ α : Type} : Outcome σ α → Option String
  | .done _ _ => none
  | .threw e _ => some e

/-- Reading a property of `null` raises this. -/
def typeError : String := "TypeError"

/-- A JavaScript string: its UTF-16 code units. -/
abbrev JSString := List Nat

/-- Code units of one character: itself in the basic plane, a surrogate pair above it. -/
def charUnits (c : Char) : List Nat :=
  if c.toNat < 65536 then [c.toNat]
  else [55296 + (c.toNat - 65536) / 1024, 56320 + (c.toNat - 65536) % 1024]

/-- The JavaScript string written as a literal. -/
def js (s : String) : JSString := s.toList.foldr (fun c acc => charUnits c ++ acc) []

/-- ECMAScript `WhiteSpace` and `LineTerminator` code units: what `\s` matches and what
`trim` strips. -/
def isWhiteSpace (c : Nat) : Bool :=
  c == 9 || c == 10 || c == 11 || c == 12 || c == 13 || c == 32 || c == 160 ||
  c == 5760 || (8192 ≤ c && c ≤ 8202) || c == 8232 || c == 8233 || c == 8239 ||
  c == 8287 || c == 12288 || c == 65279

/-- `String.prototype.trimStart`. -/
def trimStart (s : JSString) : JSString := s.dropWhile isWhiteSpace

/-- `String.prototype.trim`. -/
def trim (s : JSString) : JSString := (trimStart (trimStart s).reverse).reverse

/-! ## Regular expressions -/

/-- Member of a character class. -/
inductive ClassItem where
  | space : ClassItem
  | char (c : Nat) : ClassItem
deriving DecidableEq, Repr

/-- Does the class member match the code unit. -/
def ClassItem.test : ClassItem → Nat → Bool
  | .space, c => isWhiteSpace c
  | .char d, c => c == d

/-- One-character pattern: a literal or a negated class `[^...]`. -/
inductive Atom where
  | char (c : Nat) : Atom
  | notIn (items : List ClassItem) : Atom
deriving DecidableEq, Repr

/-- Does the atom match the code unit. -/
def Atom.test : Atom → Nat → Bool
  | .char d, c => c == d
  | .notIn items, c => !(items.any (fun i => i.test c))

/-- Term of a pattern: `^`, `$`, an atom, or an atom under the greedy quantifier `+`. -/
inductive Term where
  | lineStart : Term
  | lineEnd : Term
  | one (a : Atom) : Term
  | plus (a : Atom) : Term
deriving DecidableEq, Repr

/-- Greedy `a*` followed by the continuation `k`, with backtracking. -/
def matchStar (a : Atom) (k : JSString → Bool) : JSString → Bool
  | [] => k []
  | c :: s => (a.test c && matchStar a k s) || k (c :: s)

/-- Greedy `a+` followed by the continuation `k`. -/
def matchPlus (a : Atom) (k : JSString → Bool) : JSString → Bool
  | [] => false
  | c :: s => a.test c && matchStar a k s

/-- Does the pattern match at the current position; `atStart` tells whether that position is
index 0 of the input, the rest of the input follows. -/
def matchTerms : List Term → Bool → JSString → Bool
  | [], _, _ => true
  | .lineStart :: ts, atStart, s => atStart && matchTerms ts atStart s
  | .lineEnd :: ts, atStart, s => s.isEmpty && matchTerms ts atStart s
  | .one _ :: _, _, [] => false
  | .one a :: ts, _, c :: s => a.test c && matchTerms ts false s
  | .plus a :: ts, _, s => matchPlus a (fun r => matchTerms ts false r) s

/-- `RegExp.prototype.test` without flags: a match is tried at every index from 0. -/
def regexTest (re : List Term) (s : JSString) : Bool :=
  (List.range (s.length + 1)).any (fun i => matchTerms re (i == 0) (s.drop i))

/-- The literal `/^[^\s@]+@[^\s@]+\.[^\s@]+$/` (main.js lines 131 and 256). -/
def emailRe : List Term :=
  [.lineStart, .plus (.notIn [.space, .char 64]), .one (.char 64),
   .plus (.notIn [.space, .char 64]), .one (.char 46),
   .plus (.notIn [.space, .char 64]), .lineEnd]

/-! ## ThemeManager (main.js lines 2-55) -/

namespace ThemeManager

/-- What the class reads and writes outside itself: the `theme` entry of `localStorage`, the
`data-theme` attribute of the root element, whether `#theme-toggle` exists, and the
`innerHTML` of its first `.theme-icon` descendant (`none` when there is none). -/
structure Page where
  storage : Option String
  dataTheme : Option String
  hasToggle : Bool
  icon : Option String
deriving DecidableEq, Repr

/-- The instance field `this.theme`, the page, and whether the click listener is attached. -/
structure State where
  theme : String
  page : Page
  clickBound : Bool
deriving DecidableEq, Repr

/-- The template literal of lines 31-33, line breaks and indentation included. -/
def moonIcon : String :=
  "\n        <path d=\"M21 12.79A9 9 0 1 1 11.21 3 7 7 0 0 0 21 12.79z\"></path>\n      "

/-- The template literal of lines 35-45, line breaks and indentation included. -/
def sunIcon : String :=
  "\n        <circle cx=\"12\" cy=\"12\" r=\"5\"></circle>" ++
  "\n        <line x1=\"12\" y1=\"1\" x2=\"12\" y2=\"3\"></line>" ++
  "\n        <line x1=\"12\" y1=\"21\" x2=\"12\" y2=\"23\"></line>" ++
  "\n        <line x1=\"4.22\" y1=\"4.22\" x2=\"5.64\" y2=\"5.64\"></line>" ++
  "\n        <line x1=\"18.36\" y1=\"18.36\" x2=\"19.78\" y2=\"19.78\"></line>" ++
  "\n        <line x1=\"1\" y1=\"12\" x2=\"3\" y2=\"12\"></line>" ++
  "\n        <line x1=\"21\" y1=\"12\" x2=\"23\" y2=\"12\"></line>" ++
  "\n        <line x1=\"4.22\" y1=\"19.78\" x2=\"5.64\" y2=\"18.36\"></line>" ++
  "\n        <line x1=\"18.36\" y1=\"5.64\" x2=\"19.78\" y2=\"4.22\"></line>" ++
  "\n      "

/-- `updateThemeIcon` (lines 25-47): returns when the toggle is missing; the icon itself is
dereferenced unguarded. -/
def updateThemeIcon (s : State) : Outcome State Unit :=
  if !s.page.hasToggle then .done () s
  else
    match s.page.icon with
    | none => .threw typeError s
    | some _ =>
      if s.theme = "dark" then .done () { s with page := { s.page with icon := some moonIcon } }
      else .done () { s with page := { s.page with icon := some sunIcon } }

/-- `setTheme` (lines 13-18). -/
def setTheme (theme : String) (s : State) : Outcome State Unit :=
  let s := { s with theme := theme }
  let s := { s with page := { s.page with dataTheme := some theme } }
  let s := { s with page := { s.page with storage := some theme } }
  updateThemeIcon s

/-- `toggle` (lines 20-23). -/
def toggle (s : State) : Outcome State Unit :=
  let newTheme := if s.theme = "light" then "dark" else "light"
  setTheme newTheme s

/-- `bindEvents` (lines 49-54). -/
def bindEvents (s : State) : Outcome State Unit :=
  if s.page.hasToggle then .done () { s with clickBound := true } else .done () s

/-- `init` (lines 8-11). -/
def init (s : State) : Outcome State Unit :=
  match setTheme s.theme s with
  | .threw e s => .threw e s
  | .done _ s => bindEvents s

/-- The expression `stored || dflt` on a value read from storage: `null` and the empty string
are falsy. -/
def getItemOr (stored : Option String) (dflt : String) : String :=
  match stored with
  | none => dflt
  | some v => if v = "" then dflt else v

/-- The constructor (lines 3-6). -/
def new (p : Page) : Outcome State Unit :=
  init { theme := getItemOr p.storage "light", page := p, clickBound := false }

/-- A method call made on the instance after construction. -/
inductive Call where
  | setTheme (theme : String) : Call
  | toggle : Call
deriving DecidableEq, Repr

/-- State after one call; a raised exception leaves the state reached. -/
def call : Call → State → State
  | .setTheme t, s => (setTheme t s).state
  | .toggle, s => (toggle s).state

/-- State after a sequence of calls. -/
def calls (cs : List Call) (s : State) : State := cs.foldl (fun s c => call c s) s

/-- State after `n` calls of `toggle`. -/
def toggles (n : Nat) (s : State) : State := calls (List.replicate n Call.toggle) s

/-- The attribute and the stored value both equal the theme in memory. -/
def Mirrored (s : State) : Prop :=
  s.page.dataTheme = some s.theme ∧ s.page.storage = some s.theme

/-- One of the two modes. -/
def IsMode (t : String) : Prop := t = "light" ∨ t = "dark"

/-- The slot is absent, empty, or holds one of the two modes. -/
def ValidSlot (slot : Option String) : Prop :=
  slot = none ∨ slot = some "" ∨ slot = some "light" ∨ slot = some "dark"

end ThemeManager

/-! ## MobileNav (main.js lines 58-116) -/

namespace MobileNav

/-- The field `isOpen` and, for `#nav-menu` and `#mobile-toggle`, whether the element exists
(`none` when it does not) and carries the class `active`. -/
structure State where
  isOpen : Bool
  menu : Option Bool
  toggleEl : Option Bool
deriving DecidableEq, Repr

/-- An element on the propagation path of a click: is it `#mobile-toggle`, does it match
`.nav-link`, is it the element `document.querySelector('.nav')` returns. -/
structure PathNode where
  isToggle : Bool
  isNavLink : Bool
  isNav : Bool
deriving DecidableEq, Repr

/-- A click: its propagation path from the target up through its ancestors, and whether the
document has a `.nav` element at all. -/
structure Click where
  path : List PathNode
  navExists : Bool
deriving DecidableEq, Repr

/-- `el.classList.toggle('active', force)` on an element that may be missing. -/
def classListToggle (el : Option Bool) (force : Bool) : Option Bool := el.map (fun _ => force)

/-- `el.classList.remove('active')` on an element that may be missing. -/
def classListRemove (el : Option Bool) : Option Bool := el.map (fun _ => false)

/-- The constructor (lines 59-62) on a page with the given two elements. -/
def new (menu toggleEl : Option Bool) : State :=
  { isOpen := false, menu := menu, toggleEl := toggleEl }

/-- `toggle` (lines 68-80). -/
def toggle (s : State) : State :=
  let s := { s with isOpen := !s.isOpen }
  let s := { s with menu := classListToggle s.menu s.isOpen }
  { s with toggleEl := classListToggle s.toggleEl s.isOpen }

/-- `close` (lines 82-94). -/
def close (s : State) : State :=
  let s := { s with isOpen := false }
  let s := { s with menu := classListRemove s.menu }
  { s with toggleEl := classListRemove s.toggleEl }

/-- Listeners `bindEvents` attached to one element, in the order attached: the toggle
listener (lines 97-100), then the link listener (lines 103-106). -/
def nodeListeners (n : PathNode) (s : State) : State :=
  let s := if n.isToggle && s.toggleEl.isSome then toggle s else s
  if n.isNavLink then close s else s

/-- The listener on `document` (lines 109-114); `nav.contains(e.target)` holds when the nav
element is on the path. -/
def documentListener (c : Click) (s : State) : State :=
  if s.isOpen && c.navExists && !(c.path.any (fun n => n.isNav)) then close s else s

/-- Listeners of the elements on the path, target first. -/
def pathFold (path : List PathNode) (s : State) : State :=
  path.foldl (fun s n => nodeListeners n s) s

/-- Dispatch of a click: the listeners along the path, then the document listener. -/
def click (c : Click) (s : State) : State :=
  documentListener c (pathFold c.path s)

/-- Number of elements on the path that are the toggle control. -/
def toggleCount (c : Click) : Nat := (c.path.filter (fun n => n.isToggle)).length

/-- The toggle control is on the path. -/
def onToggle (c : Click) : Bool := c.path.any (fun n => n.isToggle)

/-- A navigation link is on the path. -/
def onNavLink (c : Click) : Bool := c.path.any (fun n => n.isNavLink)

/-- A navigation container exists and the target is outside it. -/
def outsideNav (c : Click) : Bool := c.navExists && !(c.path.any (fun n => n.isNav))

/-- Each of the two elements that exists carries `active` exactly when the menu is open. -/
def synced (s : State) : Bool :=
  (s.menu == none || s.menu == some s.isOpen) && (s.toggleEl == none || s.toggleEl == some s.isOpen)

end MobileNav

/-! ## The contact form document -/

/-- A form control matched by the selector `input, textarea`: its identity as an object, its
`id` and `name` attributes, whether it contributes an entry to a `FormData` built from the
form (it is enabled, and is not an unchecked checkbox or radio button nor a button), its
current and default value, and `style.borderColor`. -/
structure Control where
  uid : Nat
  idAttr : String
  nameAttr : String
  inFormData : Bool
  value : JSString
  defaultValue : JSString
  borderColor : String
deriving DecidableEq, Repr

/-- A `button` element: its `type` attribute, text, `style.background` and `disabled`. -/
structure Button where
  typeAttr : String
  textContent : String
  background : String
  disabled : Bool
deriving DecidableEq, Repr

/-- The children of an element, in document order: each constructor is one child followed by
its later siblings. `error` is an element with class `form-error`, `box` any other element
with its own children. -/
inductive Dom where
  | nil : Dom
  | field (f : Control) (rest : Dom) : Dom
  | error (text : String) (rest : Dom) : Dom
  | button (b : Button) (rest : Dom) : Dom
  | box (children : Dom) (rest : Dom) : Dom
deriving DecidableEq, Repr

namespace Dom

/-- `querySelectorAll` with selector `input, textarea`: the controls among the descendants, in
document order. -/
def fields : Dom → List Control
  | nil => []
  | field f rest => f :: fields rest
  | error _ rest => fields rest
  | button _ rest => fields rest
  | box children rest => fields children ++ fields rest

/-- Is the control `u` one of these children, that is, is this element `u.parentNode`. -/
def isChild (u : Nat) : Dom → Bool
  | nil => false
  | field f rest => f.uid == u || isChild u rest
  | error _ rest => isChild u rest
  | button _ rest => isChild u rest
  | box _ rest => isChild u rest

/-- Texts of the `.form-error` elements among the descendants, in document order. -/
def errorTexts : Dom → List String
  | nil => []
  | field _ rest => errorTexts rest
  | error text rest => text :: errorTexts rest
  | button _ rest => errorTexts rest
  | box children rest => errorTexts children ++ errorTexts rest

/-- Texts of the `.form-error` elements that are children themselves. -/
def childErrors : Dom → List String
  | nil => []
  | field _ rest => childErrors rest
  | error text rest => text :: childErrors rest
  | button _ rest => childErrors rest
  | box _ rest => childErrors rest

/-- Number of `.form-error` elements among the descendants. -/
def countErrors (d : Dom) : Nat := (errorTexts d).length

/-- `querySelector` with selector `.form-error` followed by `remove()` on a hit: the first
such descendant in document order is taken out (lines 157-160). -/
def removeFirstError : Dom → Dom
  | nil => nil
  | field f rest => field f (removeFirstError rest)
  | error _ rest => rest
  | button b rest => button b (removeFirstError rest)
  | box children rest =>
    if (errorTexts children).isEmpty then box children (removeFirstError rest)
    else box (removeFirstError children) rest

/-- `appendChild` of a new `.form-error` element with the given text: it becomes the last
child (lines 142-152). -/
def appendError (text : String) : Dom → Dom
  | nil => error text nil
  | field f rest => field f (appendError text rest)
  | error t rest => error t (appendError text rest)
  | button b rest => button b (appendError text rest)
  | box children rest => box children (appendError text rest)

/-- Update of every control. -/
def mapFields (g : Control → Control) : Dom → Dom
  | nil => nil
  | field f rest => field (g f) (mapFields g rest)
  | error t rest => error t (mapFields g rest)
  | button b rest => button b (mapFields g rest)
  | box children rest => box (mapFields g children) (mapFields g rest)

/-- Below these children, apply `g` to the children of the element that is the parent of
control `u`. -/
def atParentAux (u : Nat) (g : Dom → Dom) : Dom → Dom
  | nil => nil
  | field f rest => field f (atParentAux u g rest)
  | error t rest => error t (atParentAux u g rest)
  | button b rest => button b (atParentAux u g rest)
  | box children rest =>
    box (if isChild u children then g children else atParentAux u g children)
      (atParentAux u g rest)

/-- Apply `g` to the children of `u.parentNode`, the form itself or an element inside it. -/
def atParent (u : Nat) (g : Dom → Dom) (d : Dom) : Dom :=
  if isChild u d then g d else atParentAux u g d

/-- Does a `type` attribute match `[type="submit"]`: in an HTML document the value of this
attribute is compared without regard to the case of ASCII letters. -/
def isSubmitType (t : String) : Bool := t.toList.map Char.toLower == "submit".toList

/-- `querySelector` with selector `button[type="submit"]`: the first button in document order
whose `type` attribute is `submit`. -/
def firstSubmit : Dom → Option Button
  | nil => none
  | field _ rest => firstSubmit rest
  | error _ rest => firstSubmit rest
  | button b rest => if isSubmitType b.typeAttr then some b else firstSubmit rest
  | box children rest => (firstSubmit children).orElse (fun _ => firstSubmit rest)

/-- Update of the button `firstSubmit` returns. -/
def mapFirstSubmit (g : Button → Button) : Dom → Dom
  | nil => nil
  | field f rest => field f (mapFirstSubmit g rest)
  | error t rest => error t (mapFirstSubmit g rest)
  | button b rest =>
    if isSubmitType b.typeAttr then button (g b) rest else button b (mapFirstSubmit g rest)
  | box children rest =>
    if (firstSubmit children).isSome then box (mapFirstSubmit g children) rest
    else box children (mapFirstSubmit g rest)

/-- The child lists of the elements among the descendants. -/
def levelsAux : Dom → List Dom
  | nil => []
  | field _ rest => levelsAux rest
  | error _ rest => levelsAux rest
  | button _ rest => levelsAux rest
  | box children rest => children :: (levelsAux children ++ levelsAux rest)

/-- The child list of the form and of every element inside it: one entry for each element
that can be a `parentNode`. -/
def levels (d : Dom) : List Dom := d :: levelsAux d

/-- Assignment to `style.borderColor` of control `u`. -/
def setBorder (u : Nat) (color : String) (d : Dom) : Dom :=
  mapFields (fun f => if f.uid = u then { f with borderColor := color } else f) d

/-- The user changes the value of control `u`. -/
def setValue (u : Nat) (v : JSString) (d : Dom) : Dom :=
  mapFields (fun f => if f.uid = u then { f with value := v } else f) d

/-- `form.reset()`: every control goes back to its default value. -/
def reset (d : Dom) : Dom := mapFields (fun f => { f with value := f.defaultValue }) d

/-- `new FormData(form).get(name)`: the value of the first control with that `name` among
those that contribute an entry, `none` standing for `null`. -/
def formDataGet (d : Dom) (name : String) : Option JSString :=
  ((fields d).find? (fun f => f.inFormData && f.nameAttr == name)).map (fun f => f.value)

/-- `form.querySelector` with selector `#id`: the first control with that `id`, `none`
standing for `null`. -/
def querySelectorId (d : Dom) (id : String) : Option Nat :=
  ((fields d).find? (fun f => f.idAttr == id)).map (fun f => f.uid)

end Dom

/-! ## FormValidator (main.js lines 119-241) -/

namespace FormValidator

open Dom

/-- The children of `this.form` and the pending `setTimeout` callbacks, oldest first; each
callback is represented by the `originalText` it captured. All delays are 3000 ms, so the
callbacks run in the order they were scheduled. -/
structure State where
  form : Dom
  timers : List String
deriving DecidableEq, Repr

/-- The constructor and `init` (lines 120-128): without the form element no listener is
attached and there is no state to act on. -/
def new (form : Option Dom) : Option State := form.map (fun d => { form := d, timers := [] })

/-- `validateEmail` (lines 130-133). -/
def validateEmail (email : JSString) : Bool :=
  let re := emailRe
  regexTest re email

/-- `validateRequired` (lines 135-137). -/
def validateRequired (value : JSString) : Bool := decide ((trim value).length > 0)

/-- The colour written to the border of an invalid control. -/
def errorColor : String := "var(--color-error-500)"

/-- `clearError` on an element (lines 156-162). -/
def clearErrorAt (u : Nat) (d : Dom) : Dom :=
  setBorder u "" (atParent u removeFirstError d)

/-- `clearError` on what may be `null`: `input.parentNode` raises on `null`. -/
def clearError (input : Option Nat) (d : Dom) : Outcome Dom Unit :=
  match input with
  | none => .threw typeError d
  | some u => .done () (clearErrorAt u d)

/-- `showError` on an element (lines 139-154). -/
def showErrorAt (u : Nat) (message : String) (d : Dom) : Dom :=
  setBorder u errorColor (atParent u (appendError message) (clearErrorAt u d))

/-- `showError` on what may be `null`. -/
def showError (input : Option Nat) (message : String) (d : Dom) : Outcome Dom Unit :=
  match clearError input d, input with
  | .done _ d, some u => .done () (setBorder u errorColor (atParent u (appendError message) d))
  | .done _ d, none => .threw typeError d
  | .threw e d, _ => .threw e d

/-- Lines 182-185 of `validateForm`; `name` is `none` when `formData.get` gave `null`, and
`validateRequired(null)` raises. -/
def checkName (name : Option JSString) (nameInput : Option Nat) (isValid : Bool) (d : Dom) :
    Outcome Dom Bool :=
  match name with
  | none => .threw typeError d
  | some name =>
    if !validateRequired name then
      match showError nameInput "Name is required" d with
      | .done _ d => .done false d
      | .threw e d => .threw e d
    else .done isValid d

/-- Lines 187-193 of `validateForm`. -/
def checkEmail (email : Option JSString) (emailInput : Option Nat) (isValid : Bool) (d : Dom) :
    Outcome Dom Bool :=
  match email with
  | none => .threw typeError d
  | some email =>
    if !validateRequired email then
      match showError emailInput "Email is required" d with
      | .done _ d => .done false d
      | .threw e d => .threw e d
    else if !validateEmail email then
      match showError emailInput "Please enter a valid email address" d with
      | .done _ d => .done false d
      | .threw e d => .threw e d
    else .done isValid d

/-- Lines 195-201 of `validateForm`. -/
def checkMessage (message : Option JSString) (messageInput : Option Nat) (isValid : Bool)
    (d : Dom) : Outcome Dom Bool :=
  match message with
  | none => .threw typeError d
  | some message =>
    if !validateRequired message then
      match showError messageInput "Message is required" d with
      | .done _ d => .done false d
      | .threw e d => .threw e d
    else if message.length < 10 then
      match showError messageInput "Message must be at least 10 characters" d with
      | .done _ d => .done false d
      | .threw e d => .threw e d
    else .done isValid d

/-- Lines 169-171 of `validateForm`: `clearError` on every control of the form. -/
def clearAll (d : Dom) : Dom :=
  (fields d).foldl (fun d input => clearErrorAt input.uid d) d

/-- `validateForm` (lines 164-204). -/
def validateForm (form : Dom) : Outcome Dom Bool :=
  let isValid := true
  let formData := form
  let form := clearAll form
  let name := formDataGet formData "name"
  let email := formDataGet formData "email"
  let message := formDataGet formData "message"
  let nameInput := querySelectorId form "name"
  let emailInput := querySelectorId form "email"
  let messageInput := querySelectorId form "message"
  match checkName name nameInput isValid form with
  | .threw e form => .threw e form
  | .done isValid form =>
    match checkEmail email emailInput isValid form with
    | .threw e form => .threw e form
    | .done isValid form => checkMessage message messageInput isValid form

/-- `showSuccessMessage` (lines 215-229) up to the call of `setTimeout`, which is recorded
in `timers`. -/
def showSuccessMessage (s : State) : Outcome State Unit :=
  match firstSubmit s.form with
  | none => .threw typeError s
  | some submitButton =>
    let originalText := submitButton.textContent
    let form := mapFirstSubmit (fun b => { b with textContent := "Message Sent!" }) s.form
    let form := mapFirstSubmit (fun b => { b with background := "var(--color-success-500)" }) form
    let form := mapFirstSubmit (fun b => { b with disabled := true }) form
    .done () { form := form, timers := s.timers ++ [originalText] }

/-- The callback given to `setTimeout` (lines 223-228). -/
def timeout (originalText : String) (form : Dom) : Dom :=
  let form := mapFirstSubmit (fun b => { b with textContent := originalText }) form
  let form := mapFirstSubmit (fun b => { b with background := "" }) form
  let form := mapFirstSubmit (fun b => { b with disabled := false }) form
  reset form

/-- `handleSubmit` (lines 206-213). -/
def handleSubmit (s : State) : Outcome State Unit :=
  match validateForm s.form with
  | .threw e form => .threw e { s with form := form }
  | .done true form => showSuccessMessage { s with form := form }
  | .done false form => .done () { s with form := form }

/-- What can happen to the form once the listeners of `bindEvents` (lines 231-240) are
attached: the user edits a control, a control loses focus, the form is submitted, the oldest
pending timeout fires. -/
inductive Event where
  | input (u : Nat) (value : JSString) : Event
  | blur (u : Nat) : Event
  | submit : Event
  | timer : Event
deriving DecidableEq, Repr

/-- State after one event; a listener that raises leaves the state it reached. -/
def step (ev : Event) (s : State) : State :=
  match ev with
  | .input u v => { s with form := setValue u v s.form }
  | .blur u =>
    if (fields s.form).any (fun f => f.uid == u) then { s with form := clearErrorAt u s.form }
    else s
  | .submit => (handleSubmit s).state
  | .timer =>
    match s.timers with
    | [] => s
    | originalText :: pending => { form := timeout originalText s.form, timers := pending }

/-- State after a sequence of events. -/
def run (evs : List Event) (s : State) : State := evs.foldl (fun s ev => step ev s) s

/-- The user acts on a control: no submission and no timeout. -/
def isEdit : Event → Bool
  | .input _ _ => true
  | .blur _ => true
  | .submit => false
  | .timer => false

/-- One round: the user acts on the controls, submits, and the timeout of that submission
fires. -/
def submitRound (edits : List Event) (s : State) : State :=
  step Event.timer (step Event.submit (run edits s))

/-- State after a sequence of rounds. -/
def runRounds (rounds : List (List Event)) (s : State) : State :=
  rounds.foldl (fun s edits => submitRound edits s) s

/-- Every round consists of actions on the controls followed by a submission that passes
validation. -/
def validRounds : List (List Event) → State → Bool
  | [], _ => true
  | edits :: rounds, s =>
    edits.all isEdit && (validateForm (run edits s).form).value? == some true &&
      validRounds rounds (submitRound edits s)

/-- The controls `validateForm` can annotate: those found under `#name`, `#email` and
`#message`. -/
def validated (d : Dom) (u : Nat) : Bool :=
  querySelectorId d "name" == some u || querySelectorId d "email" == some u ||
    querySelectorId d "message" == some u

end FormValidator

/-! ## NewsletterForm (main.js lines 244-309) -/

namespace NewsletterForm

/-- `validateEmail` (lines 255-258). -/
def validateEmail (email : JSString) : Bool :=
  let re := emailRe
  regexTest re email

end NewsletterForm

/-! ## Notions used in the statements -/

/-- The string is `a ++ "@" ++ b ++ "." ++ c` with `a`, `b`, `c` non-empty and free of
white space and of `@`. -/
def EmailShape (s : JSString) : Prop :=
  ∃ a b c : JSString, s = a ++ [64] ++ b ++ [46] ++ c ∧ a ≠ [] ∧ b ≠ [] ∧ c ≠ [] ∧
    ∀ x ∈ a ++ b ++ c, isWhiteSpace x = false ∧ x ≠ 64

namespace Dom

/-- A control with everything but its identity and attributes blanked. -/
def canon (f : Control) : Control :=
  { f with value := [], defaultValue := [], borderColor := "" }

/-- The element structure of the form: the `.form-error` elements are dropped, the values and
styles blanked. -/
def shape : Dom → Dom
  | nil => nil
  | field f rest => field (canon f) (shape rest)
  | error _ rest => shape rest
  | button b rest =>
    button { typeAttr := b.typeAttr, textContent := "", background := "", disabled := false }
      (shape rest)
  | box children rest => box (shape children) (shape rest)

/-- Is some control selected by `V` one of these children. -/
def hasVChild (V : Nat → Bool) : Dom → Bool
  | nil => false
  | field f rest => V f.uid || hasVChild V rest
  | error _ rest => hasVChild V rest
  | button _ rest => hasVChild V rest
  | box _ rest => hasVChild V rest

/-- Number of the children that are controls selected by `V`. -/
def directV (V : Nat → Bool) : Dom → Nat
  | nil => 0
  | field f rest => (if V f.uid = true then 1 else 0) + directV V rest
  | error _ rest => directV V rest
  | button _ rest => directV V rest
  | box _ rest => directV V rest

/-- Number of controls selected by `V` among the descendants. -/
def countV (V : Nat → Bool) (d : Dom) : Nat := ((fields d).filter (fun f => V f.uid)).length

/-- An element that is the parent of a selected control has no other selected control among
its descendants. -/
def separateAt (V : Nat → Bool) (l : Dom) : Bool := !hasVChild V l || decide (countV V l ≤ 1)

/-- Every selected control sits in a parent of its own: the parent of one contains no
other, at any depth. -/
def separate (V : Nat → Bool) (d : Dom) : Bool := (levels d).all (separateAt V)

/-- Number of `.form-error` elements below these children beyond one for each outermost
parent of a selected control. -/
def excessAux (V : Nat → Bool) : Dom → Nat
  | nil => 0
  | field _ rest => excessAux V rest
  | error _ rest => 1 + excessAux V rest
  | button _ rest => excessAux V rest
  | box children rest =>
    (if hasVChild V children then countErrors children - 1 else excessAux V children)
      + excessAux V rest

/-- Number of `.form-error` elements in the form beyond one for each outermost parent of a
selected control. -/
def excess (V : Nat → Bool) (d : Dom) : Nat :=
  if hasVChild V d then countErrors d - 1 else excessAux V d

/-- An operation on the children of an element that keeps the element structure and never
adds a `.form-error` element. -/
structure Shrinking (V : Nat → Bool) (g : Dom → Dom) : Prop where
  shape_eq : ∀ x, shape (g x) = shape x
  count_le : ∀ x, countErrors (g x) ≤ countErrors x
  excess_le : ∀ x, excessAux V (g x) ≤ excessAux V x

/-- An operation on the children of an element that keeps the element structure and leaves at
most one `.form-error` element where there was at most one. -/
structure Refilling (g : Dom → Dom) : Prop where
  shape_eq : ∀ x, shape (g x) = shape x
  count_le : ∀ x, countErrors (g x) - 1 ≤ countErrors x - 1

end Dom

namespace FormValidator

open Dom

/-- The form keeps the element structure of the loaded form `d0`, and every `.form-error`
element is the only one inside the parent of a validated control. -/
def Good (d0 d : Dom) : Prop := shape d = shape d0 ∧ excess (validated d0) d = 0

/-- Every parent of control `v` holds exactly one `.form-error` element, with text `t`. -/
def Annot (v : Nat) (t : String) (d : Dom) : Prop :=
  ∀ l ∈ levels d, isChild v l = true → errorTexts l = [t]

end FormValidator

/-! ## Example documents -/

namespace Example

open Dom

/-- An enabled text control whose `id` and `name` coincide, with no default value. -/
def control (uid : Nat) (name : String) (value : String) : Control :=
  { uid := uid, idAttr := name, nameAttr := name, inFormData := true, value := js value,
    defaultValue := [], borderColor := "" }

/-- The submit button. -/
def sendButton : Button :=
  { typeAttr := "submit", textContent := "Send", background := "", disabled := false }

/-- Each control in a wrapper element of its own, followed by the submit button. -/
def grouped (name email message : String) : Dom :=
  .box (.field (control 1 "name" name) .nil)
    (.box (.field (control 2 "email" email) .nil)
      (.box (.field (control 3 "message" message) .nil) (.button sendButton .nil)))

/-- The three controls and the button as children of the form itself. -/
def flat : Dom :=
  .field (control 1 "name" "") (.field (control 2 "email" "")
    (.field (control 3 "message" "") (.button sendButton .nil)))

/-- The message control a child of the form, the other two in wrappers inside the form. -/
def nested : Dom :=
  .field (control 3 "message" "")
    (.box (.field (control 1 "name" "") .nil) (.box (.field (control 2 "email" "") .nil) .nil))

/-- The grouped form without a control named `name`. -/
def withoutName : Dom :=
  .box (.field (control 2 "email" "a@b.com") .nil)
    (.box (.field (control 3 "message" "hello world") .nil) (.button sendButton .nil))

/-- The grouped form, valid, without a submit button. -/
def withoutButton : Dom :=
  .box (.field (control 1 "name" "Ann") .nil)
    (.box (.field (control 2 "email" "a@b.com") .nil)
      (.box (.field (control 3 "message" "hello world") .nil) .nil))

/-- The user fills the three controls of `grouped` with valid values. -/
def fill : List FormValidator.Event :=
  [.input 1 (js "Ann"), .input 2 (js "a@b.com"), .blur 2, .input 3 (js "hello world")]

/-- A page with the theme toggle but no icon element inside it. -/
def toggleWithoutIcon : ThemeManager.Page :=
  { storage := none, dataTheme := none, hasToggle := true, icon := none }

/-- A page whose stored preference is neither of the two modes. -/
def bluePage : ThemeManager.Page :=
  { storage := some "blue", dataTheme := none, hasToggle := false, icon := none }

/-- A click on the toggle control, which lies outside the existing navigation container. -/
def toggleOutsideNav : MobileNav.Click :=
  { path := [{ isToggle := true, isNavLink := false, isNav := false }], navExists := true }

/-- A click on the toggle control, which lies inside the navigation container. -/
def toggleInsideNav : MobileNav.Click :=
  { path := [{ isToggle := true, isNavLink := false, isNav := false },
             { isToggle := false, isNavLink := false, isNav := true }], navExists := true }

/-- A click on a navigation link inside the navigation container. -/
def linkClick : MobileNav.Click :=
  { path := [{ isToggle := false, isNavLink := true, isNav := false },
             { isToggle := false, isNavLink := false, isNav := true }], navExists := true }

/-- A click on the page body, outside the navigation container. -/
def bodyClick : MobileNav.Click :=
  { path := [{ isToggle := false, isNavLink := false, isNav := false }], navExists := true }

/-- A click on the navigation container itself. -/
def navClick : MobileNav.Click :=
  { path := [{ isToggle := false, isNavLink := false, isNav := true }], navExists := true }

end Example

/-! ## Regular expression matching -/

theorem matchStar_iff (a : Atom) (k : JSString → Bool) (s : JSString) :
    matchStar a k s = true ↔
      ∃ p r, s = p ++ r ∧ (∀ x ∈ p, a.test x = true) ∧ k r = true := by
  induction s with
  | nil =>
    simp only [matchStar]
    constructor
    · intro h; exact ⟨[], [], rfl, by simp, h⟩
    · rintro ⟨p, r, h, -, hk⟩
      have hr : r = [] := (List.append_eq_nil.mp h.symm).2
      simpa [hr] using hk
  | cons c s ih =>
    simp only [matchStar, Bool.or_eq_true, Bool.and_eq_true, ih]
    constructor
    · rintro (⟨hc, p, r, rfl, hp, hk⟩ | hk)
      · refine ⟨c :: p, r, rfl, ?_, hk⟩
        intro x hx
        rcases List.mem_cons.mp hx with rfl | hx
        · exact hc
        · exact hp x hx
      · exact ⟨[], c :: s, rfl, by simp, hk⟩
    · rintro ⟨p, r, h, hp, hk⟩
      cases p with
      | nil =>
        right
        have hr : r = c :: s := by simpa using h.symm
        rw [← hr]; exact hk
      | cons d p =>
        simp only [List.cons_append, List.cons.injEq] at h
        obtain ⟨rfl, rfl⟩ := h
        left
        exact ⟨hp c (List.mem_cons_self _ _), p, r, rfl,
          fun x hx => hp x (List.mem_cons_of_mem _ hx), hk⟩

theorem matchPlus_iff (a : Atom) (k : JSString → Bool) (s : JSString) :
    matchPlus a k s = true ↔
      ∃ p r, s = p ++ r ∧ p ≠ [] ∧ (∀ x ∈ p, a.test x = true) ∧ k r = true := by
  cases s with
  | nil =>
    simp only [matchPlus]
    constructor
    · intro h; exact absurd h (by simp)
    · rintro ⟨p, r, h, hp, -⟩
      exact absurd (List.append_eq_nil.mp h.symm).1 hp
  | cons c s =>
    simp only [matchPlus, Bool.and_eq_true, matchStar_iff]
    constructor
    · rintro ⟨hc, p, r, rfl, hp, hk⟩
      refine ⟨c :: p, r, rfl, by simp, ?_, hk⟩
      intro x hx
      rcases List.mem_cons.mp hx with rfl | hx
      · exact hc
      · exact hp x hx
    · rintro ⟨p, r, h, hne, hp, hk⟩
      cases p with
      | nil => exact absurd rfl hne
      | cons d p =>
        simp only [List.cons_append, List.cons.injEq] at h
        obtain ⟨rfl, rfl⟩ := h
        exact ⟨hp c (List.mem_cons_self _ _), p, r, rfl,
          fun x hx => hp x (List.mem_cons_of_mem _ hx), hk⟩

theorem regexTest_lineStart (ts : List Term) (s : JSString) :
    regexTest (Term.lineStart :: ts) s = matchTerms ts true s := by
  unfold regexTest
  rw [List.range_succ_eq_map, List.any_cons]
  have h : ((List.map Nat.succ (List.range s.length)).any
      (fun i => matchTerms (Term.lineStart :: ts) (i == 0) (s.drop i))) = false := by
    rw [List.any_eq_false]
    intro i hi
    obtain ⟨j, -, rfl⟩ := List.mem_map.mp hi
    simp [matchTerms]
  rw [h]
  simp [matchTerms]

theorem matchTerms_one_iff (a : Atom) (ts : List Term) (b : Bool) (s : JSString) :
    matchTerms (Term.one a :: ts) b s = true ↔
      ∃ c r, s = c :: r ∧ a.test c = true ∧ matchTerms ts false r = true := by
  cases s with
  | nil => simp [matchTerms]
  | cons c s =>
    simp only [matchTerms, Bool.and_eq_true]
    constructor
    · rintro ⟨h1, h2⟩; exact ⟨c, s, rfl, h1, h2⟩
    · rintro ⟨d, r, h, h1, h2⟩
      simp only [List.cons.injEq] at h
      obtain ⟨rfl, rfl⟩ := h
      exact ⟨h1, h2⟩

theorem matchTerms_plus (a : Atom) (ts : List Term) (b : Bool) (s : JSString) :
    matchTerms (Term.plus a :: ts) b s = matchPlus a (fun r => matchTerms ts false r) s := by
  cases s <;> rfl

theorem matchTerms_lineEnd_iff (b : Bool) (s : JSString) :
    matchTerms [Term.lineEnd] b s = true ↔ s = [] := by
  cases s <;> simp [matchTerms]

theorem notIn_test_iff (c : Nat) :
    (Atom.notIn [.space, .char 64]).test c = true ↔ isWhiteSpace c = false ∧ c ≠ 64 := by
  simp [Atom.test, ClassItem.test]

theorem regexTest_emailRe_iff (s : JSString) : regexTest emailRe s = true ↔ EmailShape s := by
  unfold emailRe EmailShape
  rw [regexTest_lineStart]
  simp only [matchTerms_plus, matchPlus_iff, matchTerms_one_iff, matchTerms_lineEnd_iff]
  constructor
  · rintro ⟨a, r1, rfl, ha, hta, c1, r2, rfl, hc1, b, r3, rfl, hb, htb, c2, r4, rfl, hc2,
      c, r5, rfl, hc, htc, rfl⟩
    have e1 : c1 = 64 := by simpa [Atom.test] using hc1
    have e2 : c2 = 46 := by simpa [Atom.test] using hc2
    subst e1 e2
    refine ⟨a, b, c, by simp, ha, hb, hc, ?_⟩
    intro x hx
    rcases List.mem_append.mp hx with hx | hx
    · rcases List.mem_append.mp hx with hx | hx
      · exact (notIn_test_iff x).mp (hta x hx)
      · exact (notIn_test_iff x).mp (htb x hx)
    · exact (notIn_test_iff x).mp (htc x hx)
  · rintro ⟨a, b, c, rfl, ha, hb, hc, h⟩
    refine ⟨a, 64 :: (b ++ 46 :: c), by simp, ha, ?_, 64, b ++ 46 :: c, rfl, by simp [Atom.test],
      b, 46 :: c, rfl, hb, ?_, 46, c, rfl, by simp [Atom.test], c, [], by simp, hc, ?_, rfl⟩
    · intro x hx; exact (notIn_test_iff x).mpr (h x (by simp [hx]))
    · intro x hx; exact (notIn_test_iff x).mpr (h x (by simp [hx]))
    · intro x hx; exact (notIn_test_iff x).mpr (h x (by simp [hx]))

/-! ## ThemeManager -/

section ThemeLemmas

open ThemeManager

theorem setTheme_theme (t : String) (s : State) : (setTheme t s).state.theme = t := by
  unfold setTheme updateThemeIcon
  dsimp only
  split
  · rfl
  · split
    · rfl
    · split <;> rfl

theorem setTheme_mirror (t : String) (s : State) :
    (setTheme t s).state.page.dataTheme = some t ∧ (setTheme t s).state.page.storage = some t := by
  unfold setTheme updateThemeIcon
  dsimp only
  split
  · exact ⟨rfl, rfl⟩
  · split
    · exact ⟨rfl, rfl⟩
    · split <;> exact ⟨rfl, rfl⟩

theorem setTheme_idem (t : String) (s : State) :
    (setTheme t (setTheme t s).state).state = (setTheme t s).state := by
  obtain ⟨th, ⟨st, dt, ht, ic⟩, cb⟩ := s
  cases ht <;> cases ic <;> by_cases h : t = "dark" <;>
    simp [setTheme, updateThemeIcon, Outcome.state, h]

theorem setTheme_mirrored (t : String) (s : State) : Mirrored (setTheme t s).state := by
  unfold Mirrored
  rw [setTheme_theme]
  exact setTheme_mirror t s

theorem new_state (p : Page) :
    (ThemeManager.new p).state.theme = getItemOr p.storage "light" ∧
      Mirrored (ThemeManager.new p).state := by
  unfold ThemeManager.new init
  have h1 := setTheme_theme (getItemOr p.storage "light")
    { theme := getItemOr p.storage "light", page := p, clickBound := false }
  have h2 := setTheme_mirrored (getItemOr p.storage "light")
    { theme := getItemOr p.storage "light", page := p, clickBound := false }
  revert h1 h2
  generalize setTheme (getItemOr p.storage "light")
    { theme := getItemOr p.storage "light", page := p, clickBound := false } = o
  intro h1 h2
  cases o with
  | threw e s => exact ⟨h1, h2⟩
  | done a s =>
    simp only [Outcome.state] at h1 h2
    simp only [bindEvents]
    by_cases hb : s.page.hasToggle = true
    · rw [if_pos hb]; exact ⟨h1, h2⟩
    · rw [if_neg hb]; exact ⟨h1, h2⟩

theorem call_mirrored (c : Call) (s : State) : Mirrored (call c s) := by
  cases c with
  | setTheme t => exact setTheme_mirrored t s
  | toggle => exact setTheme_mirrored _ s

theorem calls_mirrored (cs : List Call) (s : State) (h : Mirrored s) : Mirrored (calls cs s) := by
  induction cs generalizing s with
  | nil => exact h
  | cons c cs ih => exact ih (call c s) (call_mirrored c s)

theorem toggle_theme (s : State) :
    (toggle s).state.theme = if s.theme = "light" then "dark" else "light" := by
  unfold toggle
  exact setTheme_theme _ s

theorem toggle_mode (s : State) : IsMode (toggle s).state.theme := by
  rw [toggle_theme]
  unfold IsMode
  split
  · right; rfl
  · left; rfl

theorem toggles_succ (n : Nat) (s : State) :
    toggles (n + 1) s = (toggle (toggles n s)).state := by
  unfold toggles calls
  rw [List.replicate_succ', List.foldl_append]
  rfl

theorem toggles_mode (n : Nat) (s : State) (h : IsMode s.theme) : IsMode (toggles n s).theme := by
  cases n with
  | zero => exact h
  | succ n => rw [toggles_succ]; exact toggle_mode _

theorem toggle_twice (s : State) (h : IsMode s.theme) :
    (toggle (toggle s).state).state.theme = s.theme := by
  rw [toggle_theme, toggle_theme]
  rcases h with h | h <;> simp [h]

end ThemeLemmas

/-! ## MobileNav -/

section NavLemmas

open MobileNav

theorem toggle_isOpen (s : State) : (toggle s).isOpen = !s.isOpen := rfl

theorem toggle_toggleEl (s : State) : (toggle s).toggleEl.isSome = s.toggleEl.isSome := by
  cases s with
  | mk o m t => cases t <;> rfl

theorem close_isOpen (s : State) : (close s).isOpen = false := rfl

theorem close_toggleEl (s : State) : (close s).toggleEl.isSome = s.toggleEl.isSome := by
  cases s with
  | mk o m t => cases t <;> rfl

theorem toggle_synced (s : State) : synced (toggle s) = true := by
  obtain ⟨o, m, t⟩ := s
  cases m <;> cases t <;> simp [synced, toggle, classListToggle]

theorem close_synced (s : State) : synced (close s) = true := by
  obtain ⟨o, m, t⟩ := s
  cases m <;> cases t <;> simp [synced, close, classListRemove]

theorem nodeListeners_synced (n : PathNode) (s : State) (h : synced s = true) :
    synced (nodeListeners n s) = true := by
  unfold nodeListeners
  dsimp only
  by_cases h1 : (n.isToggle && s.toggleEl.isSome) = true <;>
    by_cases h2 : n.isNavLink = true <;>
    simp only [h1, h2, if_true, if_false, Bool.false_eq_true] <;>
    first | exact close_synced _ | exact toggle_synced _ | exact h

theorem pathFold_synced (path : List PathNode) (s : State) (h : synced s = true) :
    synced (pathFold path s) = true := by
  induction path generalizing s with
  | nil => exact h
  | cons n rest ih => exact ih _ (nodeListeners_synced n s h)

theorem documentListener_synced (c : Click) (s : State) (h : synced s = true) :
    synced (documentListener c s) = true := by
  unfold documentListener
  split
  · exact close_synced _
  · exact h

theorem pathFold_toggles (path : List PathNode) (s : State)
    (hl : path.any (fun n => n.isNavLink) = false) (ht : s.toggleEl.isSome = true) :
    (pathFold path s).isOpen =
      (if (path.filter (fun n => n.isToggle)).length % 2 = 1 then !s.isOpen else s.isOpen) := by
  induction path generalizing s with
  | nil => simp [pathFold]
  | cons n rest ih =>
    simp only [List.any_cons, Bool.or_eq_false_iff] at hl
    obtain ⟨hn, hrest⟩ := hl
    have hstep : pathFold (n :: rest) s = pathFold rest (nodeListeners n s) := rfl
    rw [hstep]
    by_cases hT : n.isToggle = true
    · have e : nodeListeners n s = toggle s := by
        simp [nodeListeners, hT, ht, hn]
      rw [e, ih (toggle s) hrest (by rw [toggle_toggleEl]; exact ht), toggle_isOpen]
      simp only [List.filter_cons, hT, if_true, List.length_cons]
      rcases Nat.mod_two_eq_zero_or_one (List.filter (fun n => n.isToggle) rest).length with h | h
      · have h' : ((List.filter (fun n => n.isToggle) rest).length + 1) % 2 = 1 := by omega
        simp [h, h']
      · have h' : ((List.filter (fun n => n.isToggle) rest).length + 1) % 2 = 0 := by omega
        simp [h, h']
    · have hT' : n.isToggle = false := by simpa using hT
      have e : nodeListeners n s = s := by
        simp [nodeListeners, hT', hn]
      rw [e, ih s hrest ht]
      simp [List.filter_cons, hT']

theorem pathFold_links (path : List PathNode) (s : State)
    (ht : path.any (fun n => n.isToggle) = false) :
    (pathFold path s).isOpen = (if path.any (fun n => n.isNavLink) = true then false else s.isOpen)
      ∧ (path.any (fun n => n.isNavLink) = false → pathFold path s = s) := by
  induction path generalizing s with
  | nil => simp [pathFold]
  | cons n rest ih =>
    simp only [List.any_cons, Bool.or_eq_false_iff] at ht
    obtain ⟨hn, hrest⟩ := ht
    have hstep : pathFold (n :: rest) s = pathFold rest (nodeListeners n s) := rfl
    rw [hstep]
    by_cases hL : n.isNavLink = true
    · have e : nodeListeners n s = close s := by simp [nodeListeners, hn, hL]
      rw [e]
      refine ⟨?_, ?_⟩
      · rw [(ih (close s) hrest).1]
        simp [hL, close_isOpen]
      · intro h; simp [hL] at h
    · have hL' : n.isNavLink = false := by simpa using hL
      have e : nodeListeners n s = s := by simp [nodeListeners, hn, hL']
      rw [e]
      refine ⟨?_, ?_⟩
      · rw [(ih s hrest).1]; simp [hL']
      · intro h
        simp only [List.any_cons, hL', Bool.false_or] at h
        exact (ih s hrest).2 h

theorem documentListener_inside (c : Click) (s : State) (h : outsideNav c = false) :
    documentListener c s = s := by
  unfold documentListener
  unfold outsideNav at h
  rw [Bool.and_assoc, h]
  simp

theorem documentListener_outside (c : Click) (s : State) (h : outsideNav c = true) :
    (documentListener c s).isOpen = false := by
  unfold documentListener
  unfold outsideNav at h
  rw [Bool.and_assoc, h]
  cases ho : s.isOpen
  · simp [ho]
  · simp [close_isOpen]

theorem nodeListeners_toggleEl (n : PathNode) (s : State) :
    (nodeListeners n s).toggleEl.isSome = s.toggleEl.isSome := by
  obtain ⟨a, b, c⟩ := n
  obtain ⟨o, m, t⟩ := s
  cases a <;> cases b <;> cases t <;> rfl

theorem pathFold_toggleEl (path : List PathNode) (s : State) (h : s.toggleEl.isSome = true) :
    (pathFold path s).toggleEl.isSome = true := by
  induction path generalizing s with
  | nil => exact h
  | cons n rest ih => exact ih _ (by rw [nodeListeners_toggleEl]; exact h)

end NavLemmas

/-! ## The contact form -/

section FormLemmas

open Dom FormValidator

theorem shape_removeFirstError (d : Dom) : shape (removeFirstError d) = shape d := by
  induction d with
  | nil => rfl
  | field f r ih => simp [removeFirstError, shape, ih]
  | error t r _ => simp [removeFirstError, shape]
  | button b r ih => simp [removeFirstError, shape, ih]
  | box c r ihc ihr =>
    simp only [removeFirstError]
    split <;> simp [shape, ihc, ihr]

theorem shape_appendError (t : String) (d : Dom) : shape (appendError t d) = shape d := by
  induction d with
  | nil => rfl
  | field f r ih => simp [appendError, shape, ih]
  | error t r ih => simp [appendError, shape, ih]
  | button b r ih => simp [appendError, shape, ih]
  | box c r _ ihr => simp [appendError, shape, ihr]

theorem shape_mapFields (g : Control → Control) (hg : ∀ f, canon (g f) = canon f) (d : Dom) :
    shape (mapFields g d) = shape d := by
  induction d with
  | nil => rfl
  | field f r ih => simp [mapFields, shape, ih, hg]
  | error t r ih => simp [mapFields, shape, ih]
  | button b r ih => simp [mapFields, shape, ih]
  | box c r ihc ihr => simp [mapFields, shape, ihc, ihr]

theorem shape_mapFirstSubmit (g : Button → Button) (hg : ∀ b, (g b).typeAttr = b.typeAttr)
    (d : Dom) : shape (mapFirstSubmit g d) = shape d := by
  induction d with
  | nil => rfl
  | field f r ih => simp [mapFirstSubmit, shape, ih]
  | error t r ih => simp [mapFirstSubmit, shape, ih]
  | button b r ih =>
    simp only [mapFirstSubmit]
    split <;> simp [shape, ih, hg]
  | box c r ihc ihr =>
    simp only [mapFirstSubmit]
    split <;> simp [shape, ihc, ihr]

theorem shape_atParentAux (u : Nat) (g : Dom → Dom) (hg : ∀ x, shape (g x) = shape x) (d : Dom) :
    shape (atParentAux u g d) = shape d := by
  induction d with
  | nil => rfl
  | field f r ih => simp [atParentAux, shape, ih]
  | error t r ih => simp [atParentAux, shape, ih]
  | button b r ih => simp [atParentAux, shape, ih]
  | box c r ihc ihr =>
    simp only [atParentAux]
    split <;> simp [shape, ihc, ihr, hg]

theorem shape_atParent (u : Nat) (g : Dom → Dom) (hg : ∀ x, shape (g x) = shape x) (d : Dom) :
    shape (atParent u g d) = shape d := by
  unfold atParent
  split
  · exact hg d
  · exact shape_atParentAux u g hg d

theorem hasVChild_shape (V : Nat → Bool) (d : Dom) : hasVChild V (shape d) = hasVChild V d := by
  induction d with
  | nil => rfl
  | field f r ih => simp [hasVChild, shape, ih, canon]
  | error t r ih => simp [hasVChild, shape, ih]
  | button b r ih => simp [hasVChild, shape, ih]
  | box c r _ ihr => simp [hasVChild, shape, ihr]

theorem isChild_eq_hasVChild (u : Nat) (d : Dom) : isChild u d = hasVChild (fun x => x == u) d := by
  induction d with
  | nil => rfl
  | field f r ih => simp [hasVChild, isChild, ih]
  | error t r ih => simp [hasVChild, isChild, ih]
  | button b r ih => simp [hasVChild, isChild, ih]
  | box c r _ ihr => simp [hasVChild, isChild, ihr]

theorem fields_shape (d : Dom) : fields (shape d) = (fields d).map canon := by
  induction d with
  | nil => rfl
  | field f r ih => simp [fields, shape, ih]
  | error t r ih => simp [fields, shape, ih]
  | button b r ih => simp [fields, shape, ih]
  | box c r ihc ihr => simp [fields, shape, ihc, ihr]

theorem countV_shape (V : Nat → Bool) (d : Dom) : countV V (shape d) = countV V d := by
  unfold countV
  rw [fields_shape, List.filter_map, List.length_map]
  rfl

theorem levelsAux_shape (d : Dom) : levelsAux (shape d) = (levelsAux d).map shape := by
  induction d with
  | nil => rfl
  | field f r ih => simp [levelsAux, shape, ih]
  | error t r ih => simp [levelsAux, shape, ih]
  | button b r ih => simp [levelsAux, shape, ih]
  | box c r ihc ihr => simp [levelsAux, shape, ihc, ihr]

theorem separateAt_shape (V : Nat → Bool) (d : Dom) : separateAt V (shape d) = separateAt V d := by
  unfold separateAt
  rw [hasVChild_shape, countV_shape]

theorem separate_shape (V : Nat → Bool) (d : Dom) : separate V (shape d) = separate V d := by
  unfold separate levels
  rw [List.all_cons, List.all_cons, levelsAux_shape, List.all_map, separateAt_shape]
  have e : (separateAt V ∘ shape) = separateAt V := funext (fun x => separateAt_shape V x)
  rw [e]

theorem querySelectorId_shape (d : Dom) (id : String) :
    querySelectorId (shape d) id = querySelectorId d id := by
  unfold querySelectorId
  rw [fields_shape, List.find?_map]
  cases h : List.find? ((fun f => f.idAttr == id) ∘ canon) (fields d) with
  | none =>
    have : List.find? (fun f => f.idAttr == id) (fields d) = none := h
    simp [this]
  | some f =>
    have : List.find? (fun f => f.idAttr == id) (fields d) = some f := h
    simp [this, canon]

theorem errorTexts_appendError (t : String) (d : Dom) :
    errorTexts (appendError t d) = errorTexts d ++ [t] := by
  induction d with
  | nil => rfl
  | field f r ih => simp [appendError, errorTexts, ih]
  | error t r ih => simp [appendError, errorTexts, ih]
  | button b r ih => simp [appendError, errorTexts, ih]
  | box c r _ ihr => simp [appendError, errorTexts, ihr]

theorem errorTexts_removeFirstError (d : Dom) :
    errorTexts (removeFirstError d) = (errorTexts d).tail := by
  induction d with
  | nil => rfl
  | field f r ih => simp [removeFirstError, errorTexts, ih]
  | error t r _ => simp [removeFirstError, errorTexts]
  | button b r ih => simp [removeFirstError, errorTexts, ih]
  | box c r ihc ihr =>
    simp only [removeFirstError]
    split
    · rename_i h
      have hc : errorTexts c = [] := List.isEmpty_iff.mp h
      simp [errorTexts, ihr, hc]
    · rename_i h
      have hc : errorTexts c ≠ [] := fun e => h (List.isEmpty_iff.mpr e)
      simp only [errorTexts, ihc]
      cases hE : errorTexts c with
      | nil => exact absurd hE hc
      | cons a l => simp

theorem errorTexts_mapFields (g : Control → Control) (d : Dom) :
    errorTexts (mapFields g d) = errorTexts d := by
  induction d with
  | nil => rfl
  | field f r ih => simp [mapFields, errorTexts, ih]
  | error t r ih => simp [mapFields, errorTexts, ih]
  | button b r ih => simp [mapFields, errorTexts, ih]
  | box c r ihc ihr => simp [mapFields, errorTexts, ihc, ihr]

theorem errorTexts_mapFirstSubmit (g : Button → Button) (d : Dom) :
    errorTexts (mapFirstSubmit g d) = errorTexts d := by
  induction d with
  | nil => rfl
  | field f r ih => simp [mapFirstSubmit, errorTexts, ih]
  | error t r ih => simp [mapFirstSubmit, errorTexts, ih]
  | button b r ih =>
    simp only [mapFirstSubmit]
    split <;> simp [errorTexts, ih]
  | box c r ihc ihr =>
    simp only [mapFirstSubmit]
    split <;> simp [errorTexts, ihc, ihr]

theorem countErrors_field (f : Control) (r : Dom) : countErrors (field f r) = countErrors r := rfl

theorem countErrors_button (b : Button) (r : Dom) : countErrors (button b r) = countErrors r := rfl

theorem countErrors_error (t : String) (r : Dom) :
    countErrors (error t r) = countErrors r + 1 := by
  simp [countErrors, errorTexts]

theorem countErrors_box (c r : Dom) : countErrors (box c r) = countErrors c + countErrors r := by
  simp [countErrors, errorTexts]

theorem countErrors_removeFirstError (d : Dom) :
    countErrors (removeFirstError d) = countErrors d - 1 := by
  simp [countErrors, errorTexts_removeFirstError]

theorem countErrors_appendError (t : String) (d : Dom) :
    countErrors (appendError t d) = countErrors d + 1 := by
  simp [countErrors, errorTexts_appendError]

theorem hasVChild_congr (V : Nat → Bool) {a b : Dom} (h : shape a = shape b) :
    hasVChild V a = hasVChild V b := by
  rw [← hasVChild_shape V a, ← hasVChild_shape V b, h]

theorem isChild_congr (u : Nat) {a b : Dom} (h : shape a = shape b) :
    isChild u a = isChild u b := by
  rw [isChild_eq_hasVChild, isChild_eq_hasVChild]
  exact hasVChild_congr _ h

theorem countV_congr (V : Nat → Bool) {a b : Dom} (h : shape a = shape b) :
    countV V a = countV V b := by
  rw [← countV_shape V a, ← countV_shape V b, h]

theorem shrinking_removeFirstError (V : Nat → Bool) : Shrinking V removeFirstError where
  shape_eq := shape_removeFirstError
  count_le := fun x => by rw [countErrors_removeFirstError]; omega
  excess_le := by
    intro x
    induction x with
    | nil => simp [removeFirstError]
    | field f r ih => simpa [removeFirstError, excessAux] using ih
    | error t r _ => simp [removeFirstError, excessAux]
    | button b r ih => simpa [removeFirstError, excessAux] using ih
    | box c r ihc ihr =>
      simp only [removeFirstError]
      split
      · simp only [excessAux]; omega
      · simp only [excessAux, hasVChild_congr V (shape_removeFirstError c),
          countErrors_removeFirstError]
        split <;> omega

theorem shrinking_atParentAux (V : Nat → Bool) (u : Nat) (g : Dom → Dom) (hg : Shrinking V g) :
    Shrinking V (atParentAux u g) where
  shape_eq := shape_atParentAux u g hg.shape_eq
  count_le := by
    intro x
    induction x with
    | nil => simp [atParentAux]
    | field f r ih => simpa [atParentAux, countErrors_field] using ih
    | error t r ih => simpa [atParentAux, countErrors_error] using ih
    | button b r ih => simpa [atParentAux, countErrors_button] using ih
    | box c r ihc ihr =>
      simp only [atParentAux, countErrors_box]
      split
      · have := hg.count_le c; omega
      · omega
  excess_le := by
    intro x
    induction x with
    | nil => simp [atParentAux]
    | field f r ih => simpa [atParentAux, excessAux] using ih
    | error t r ih => simpa [atParentAux, excessAux] using ih
    | button b r ih => simpa [atParentAux, excessAux] using ih
    | box c r ihc ihr =>
      have hcnt : countErrors (atParentAux u g c) ≤ countErrors c := by
        clear ihc ihr
        induction c with
        | nil => simp [atParentAux]
        | field f r ih => simpa [atParentAux, countErrors_field] using ih
        | error t r ih => simpa [atParentAux, countErrors_error] using ih
        | button b r ih => simpa [atParentAux, countErrors_button] using ih
        | box c r ihc ihr =>
          simp only [atParentAux, countErrors_box]
          split
          · have := hg.count_le c; omega
          · omega
      simp only [atParentAux, excessAux]
      split
      · rw [hasVChild_congr V (hg.shape_eq c)]
        have h1 := hg.count_le c
        have h2 := hg.excess_le c
        split <;> omega
      · rw [hasVChild_congr V (shape_atParentAux u g hg.shape_eq c)]
        split <;> omega

theorem shrinking_excess (V : Nat → Bool) (g : Dom → Dom) (hg : Shrinking V g) (d : Dom) :
    excess V (g d) ≤ excess V d := by
  unfold excess
  rw [hasVChild_congr V (hg.shape_eq d)]
  have h1 := hg.count_le d
  have h2 := hg.excess_le d
  split <;> omega

theorem shrinking_atParent (V : Nat → Bool) (u : Nat) (g : Dom → Dom) (hg : Shrinking V g) :
    Shrinking V (atParent u g) := by
  have ha := shrinking_atParentAux V u g hg
  constructor
  · intro x; unfold atParent; split
    · exact hg.shape_eq x
    · exact ha.shape_eq x
  · intro x; unfold atParent; split
    · exact hg.count_le x
    · exact ha.count_le x
  · intro x; unfold atParent; split
    · exact hg.excess_le x
    · exact ha.excess_le x

theorem shrinking_mapFields (V : Nat → Bool) (g : Control → Control)
    (hg : ∀ f, canon (g f) = canon f) : Shrinking V (mapFields g) where
  shape_eq := shape_mapFields g hg
  count_le := fun x => by simp [countErrors, errorTexts_mapFields]
  excess_le := by
    intro x
    induction x with
    | nil => simp [mapFields]
    | field f r ih => simpa [mapFields, excessAux] using ih
    | error t r ih => simpa [mapFields, excessAux] using ih
    | button b r ih => simpa [mapFields, excessAux] using ih
    | box c r ihc ihr =>
      simp only [mapFields, excessAux, hasVChild_congr V (shape_mapFields g hg c), countErrors,
        errorTexts_mapFields]
      split <;> omega

theorem shrinking_mapFirstSubmit (V : Nat → Bool) (g : Button → Button)
    (hg : ∀ b, (g b).typeAttr = b.typeAttr) : Shrinking V (mapFirstSubmit g) where
  shape_eq := shape_mapFirstSubmit g hg
  count_le := fun x => by simp [countErrors, errorTexts_mapFirstSubmit]
  excess_le := by
    intro x
    induction x with
    | nil => simp [mapFirstSubmit]
    | field f r ih => simpa [mapFirstSubmit, excessAux] using ih
    | error t r ih => simpa [mapFirstSubmit, excessAux] using ih
    | button b r ih =>
      simp only [mapFirstSubmit]
      split
      · simp [excessAux]
      · simpa [excessAux] using ih
    | box c r ihc ihr =>
      simp only [mapFirstSubmit]
      split
      · simp only [excessAux, hasVChild_congr V (shape_mapFirstSubmit g hg c), countErrors,
          errorTexts_mapFirstSubmit]
        split <;> omega
      · simp only [excessAux]; omega

theorem shrinking_comp (V : Nat → Bool) (g h : Dom → Dom) (hg : Shrinking V g)
    (hh : Shrinking V h) : Shrinking V (g ∘ h) where
  shape_eq := fun x => by simp [Function.comp, hg.shape_eq, hh.shape_eq]
  count_le := fun x => le_trans (hg.count_le _) (hh.count_le x)
  excess_le := fun x => le_trans (hg.excess_le _) (hh.excess_le x)

theorem countV_field (V : Nat → Bool) (f : Control) (r : Dom) :
    countV V (field f r) = (if V f.uid = true then 1 else 0) + countV V r := by
  unfold countV
  simp only [fields, List.filter_cons]
  split
  · simp; omega
  · simp

theorem countV_error (V : Nat → Bool) (t : String) (r : Dom) :
    countV V (error t r) = countV V r := rfl

theorem countV_button (V : Nat → Bool) (b : Button) (r : Dom) :
    countV V (button b r) = countV V r := rfl

theorem countV_box (V : Nat → Bool) (c r : Dom) :
    countV V (box c r) = countV V c + countV V r := by
  unfold countV
  simp [fields]

theorem hasVChild_countV (V : Nat → Bool) (d : Dom) (h : hasVChild V d = true) :
    1 ≤ countV V d := by
  induction d with
  | nil => simp [hasVChild] at h
  | field f r ih =>
    rw [countV_field]
    simp only [hasVChild, Bool.or_eq_true] at h
    rcases h with h | h
    · simp [h]
    · have := ih h; omega
  | error t r ih => exact ih h
  | button b r ih => exact ih h
  | box c r _ ihr =>
    rw [countV_box]
    have := ihr h
    omega

theorem isChild_hasVChild (V : Nat → Bool) (v : Nat) (hv : V v = true) (d : Dom)
    (h : isChild v d = true) : hasVChild V d = true := by
  induction d with
  | nil => simp [isChild] at h
  | field f r ih =>
    simp only [isChild, Bool.or_eq_true, beq_iff_eq] at h
    simp only [hasVChild, Bool.or_eq_true]
    rcases h with h | h
    · left; rw [h]; exact hv
    · right; exact ih h
  | error t r ih => exact ih h
  | button b r ih => exact ih h
  | box c r _ ihr => exact ihr h

theorem atParentAux_absent (V : Nat → Bool) (v : Nat) (hv : V v = true) (g : Dom → Dom) (d : Dom)
    (h : countV V d = 0) : atParentAux v g d = d ∧ isChild v d = false := by
  induction d with
  | nil => exact ⟨rfl, rfl⟩
  | field f r ih =>
    rw [countV_field] at h
    have hf : V f.uid = false := by
      by_contra hc
      simp only [Bool.not_eq_false] at hc
      simp [hc] at h
    have hr : countV V r = 0 := by omega
    have hne : (f.uid == v) = false := by
      rw [beq_eq_false_iff_ne]
      intro e
      rw [e, hv] at hf
      exact Bool.noConfusion hf
    exact ⟨by simp [atParentAux, (ih hr).1], by simp [isChild, hne, (ih hr).2]⟩
  | error t r ih =>
    exact ⟨by simp [atParentAux, (ih h).1], by simp [isChild, (ih h).2]⟩
  | button b r ih =>
    exact ⟨by simp [atParentAux, (ih h).1], by simp [isChild, (ih h).2]⟩
  | box c r ihc ihr =>
    rw [countV_box] at h
    have hc : countV V c = 0 := by omega
    have hr : countV V r = 0 := by omega
    exact ⟨by simp [atParentAux, (ihc hc).1, (ihc hc).2, (ihr hr).1],
      by simp [isChild, (ihr hr).2]⟩

theorem atParentAux_single (V : Nat → Bool) (v : Nat) (hv : V v = true) (g : Dom → Dom) (d : Dom)
    (hc : hasVChild V d = true) (h1 : countV V d ≤ 1) : atParentAux v g d = d := by
  induction d with
  | nil => rfl
  | field f r ih =>
    rw [countV_field] at h1
    simp only [hasVChild, Bool.or_eq_true] at hc
    by_cases hf : V f.uid = true
    · simp only [hf, if_true] at h1
      have hr : countV V r = 0 := by omega
      simp [atParentAux, (atParentAux_absent V v hv g r hr).1]
    · simp only [hf, if_false] at h1
      have hcr : hasVChild V r = true := by
        rcases hc with hc | hc
        · exact absurd hc hf
        · exact hc
      simp [atParentAux, ih hcr (by omega)]
  | error t r ih => simp [atParentAux, ih hc h1]
  | button b r ih => simp [atParentAux, ih hc h1]
  | box c r _ ihr =>
    rw [countV_box] at h1
    have hcr : hasVChild V r = true := hc
    have := hasVChild_countV V r hcr
    have hc0 : countV V c = 0 := by omega
    have ha := atParentAux_absent V v hv g c hc0
    simp [atParentAux, ha.1, ha.2, ihr hcr (by omega)]

theorem all_levelsAux_box (P : Dom → Bool) (c r : Dom) :
    (levelsAux (box c r)).all P = (P c && ((levelsAux c).all P && (levelsAux r).all P)) := by
  simp [levelsAux, List.all_append]

theorem refilling_excessAux (V : Nat → Bool) (v : Nat) (hv : V v = true) (g : Dom → Dom)
    (hg : Refilling g) (d : Dom) (hs : (levelsAux d).all (separateAt V) = true) :
    excessAux V (atParentAux v g d) ≤ excessAux V d := by
  induction d with
  | nil => simp [atParentAux]
  | field f r ih => simpa [atParentAux, excessAux] using ih hs
  | error t r ih => simpa [atParentAux, excessAux] using ih hs
  | button b r ih => simpa [atParentAux, excessAux] using ih hs
  | box c r ihc ihr =>
    rw [all_levelsAux_box] at hs
    simp only [Bool.and_eq_true] at hs
    obtain ⟨hsc, hlc, hlr⟩ := hs
    have hr := ihr hlr
    simp only [atParentAux, excessAux]
    by_cases hch : isChild v c = true
    · have hV : hasVChild V c = true := isChild_hasVChild V v hv c hch
      simp only [hch, if_true, hasVChild_congr V (hg.shape_eq c), hV]
      have := hg.count_le c
      omega
    · simp only [hch, if_false, Bool.false_eq_true]
      by_cases hV : hasVChild V c = true
      · have h1 : countV V c ≤ 1 := by
          simpa [separateAt, hV] using hsc
        rw [atParentAux_single V v hv g c hV h1]
        omega
      · rw [hasVChild_congr V (shape_atParentAux v g hg.shape_eq c)]
        simp only [hV, if_false, Bool.false_eq_true]
        have := ihc hlc
        omega

theorem refilling_excess (V : Nat → Bool) (v : Nat) (hv : V v = true) (g : Dom → Dom)
    (hg : Refilling g) (d : Dom) (hs : separate V d = true) :
    excess V (atParent v g d) ≤ excess V d := by
  unfold separate levels at hs
  rw [List.all_cons, Bool.and_eq_true] at hs
  obtain ⟨hsd, hl⟩ := hs
  unfold excess atParent
  by_cases hch : isChild v d = true
  · have hV : hasVChild V d = true := isChild_hasVChild V v hv d hch
    simp only [hch, if_true, hasVChild_congr V (hg.shape_eq d), hV]
    exact hg.count_le d
  · simp only [hch, if_false, Bool.false_eq_true]
    by_cases hV : hasVChild V d = true
    · have h1 : countV V d ≤ 1 := by
        simpa [separateAt, hV] using hsd
      rw [atParentAux_single V v hv g d hV h1]
    · rw [hasVChild_congr V (shape_atParentAux v g hg.shape_eq d)]
      simp only [hV, if_false, Bool.false_eq_true]
      exact refilling_excessAux V v hv g hg d hl

theorem refilling_append_remove (t : String) : Refilling (appendError t ∘ removeFirstError) where
  shape_eq := fun x => by
    simp [Function.comp, shape_appendError, shape_removeFirstError]
  count_le := fun x => by
    simp only [Function.comp, countErrors_appendError, countErrors_removeFirstError]
    omega

theorem mapFields_appendError (h : Control → Control) (t : String) (d : Dom) :
    appendError t (mapFields h d) = mapFields h (appendError t d) := by
  induction d with
  | nil => rfl
  | field f r ih => simp [mapFields, appendError, ih]
  | error t r ih => simp [mapFields, appendError, ih]
  | button b r ih => simp [mapFields, appendError, ih]
  | box c r _ ihr => simp [mapFields, appendError, ihr]

theorem atParentAux_mapFields (u : Nat) (g : Dom → Dom) (h : Control → Control)
    (hh : ∀ f, canon (h f) = canon f) (hg : ∀ x, g (mapFields h x) = mapFields h (g x))
    (d : Dom) : atParentAux u g (mapFields h d) = mapFields h (atParentAux u g d) := by
  induction d with
  | nil => rfl
  | field f r ih => simp [mapFields, atParentAux, ih]
  | error t r ih => simp [mapFields, atParentAux, ih]
  | button b r ih => simp [mapFields, atParentAux, ih]
  | box c r ihc ihr =>
    simp only [mapFields, atParentAux, isChild_congr u (shape_mapFields h hh c), ihc, ihr, hg]
    split <;> rfl

theorem atParent_mapFields (u : Nat) (g : Dom → Dom) (h : Control → Control)
    (hh : ∀ f, canon (h f) = canon f) (hg : ∀ x, g (mapFields h x) = mapFields h (g x))
    (d : Dom) : atParent u g (mapFields h d) = mapFields h (atParent u g d) := by
  unfold atParent
  rw [isChild_congr u (shape_mapFields h hh d)]
  split
  · exact hg d
  · exact atParentAux_mapFields u g h hh hg d

theorem atParentAux_comp (u : Nat) (g f : Dom → Dom) (hf : ∀ x, shape (f x) = shape x)
    (d : Dom) : atParentAux u g (atParentAux u f d) = atParentAux u (g ∘ f) d := by
  induction d with
  | nil => rfl
  | field c r ih => simp [atParentAux, ih]
  | error t r ih => simp [atParentAux, ih]
  | button b r ih => simp [atParentAux, ih]
  | box c r ihc ihr =>
    simp only [atParentAux, ihr]
    by_cases hch : isChild u c = true
    · simp [hch, isChild_congr u (hf c)]
    · simp [hch, isChild_congr u (shape_atParentAux u f hf c), ihc]

theorem atParent_comp (u : Nat) (g f : Dom → Dom) (hf : ∀ x, shape (f x) = shape x)
    (d : Dom) : atParent u g (atParent u f d) = atParent u (g ∘ f) d := by
  unfold atParent
  by_cases hch : isChild u d = true
  · simp [hch, isChild_congr u (hf d)]
  · simp [hch, isChild_congr u (shape_atParentAux u f hf d), atParentAux_comp u g f hf d]

theorem canon_setBorder (u : Nat) (c : String) (f : Control) :
    canon (if f.uid = u then { f with borderColor := c } else f) = canon f := by
  split <;> rfl

theorem canon_setValue (u : Nat) (v : JSString) (f : Control) :
    canon (if f.uid = u then { f with value := v } else f) = canon f := by
  split <;> rfl

theorem showErrorAt_eq (u : Nat) (t : String) (d : Dom) :
    showErrorAt u t d =
      setBorder u errorColor (setBorder u "" (atParent u (appendError t ∘ removeFirstError) d)) := by
  unfold showErrorAt clearErrorAt setBorder
  rw [atParent_mapFields u (appendError t) _ (canon_setBorder u "")
    (fun x => mapFields_appendError _ t x), atParent_comp u _ _ shape_removeFirstError]

theorem good_of_shrinking (d0 : Dom) (g : Dom → Dom) (hg : Shrinking (validated d0) g) (d : Dom)
    (h : Good d0 d) : Good d0 (g d) := by
  refine ⟨by rw [hg.shape_eq]; exact h.1, ?_⟩
  have := shrinking_excess (validated d0) g hg d
  have h2 := h.2
  omega

theorem shrinking_setBorder (V : Nat → Bool) (u : Nat) (c : String) :
    Shrinking V (setBorder u c) :=
  shrinking_mapFields V _ (canon_setBorder u c)

theorem shrinking_clearErrorAt (V : Nat → Bool) (u : Nat) : Shrinking V (clearErrorAt u) :=
  shrinking_comp V _ _ (shrinking_setBorder V u "")
    (shrinking_atParent V u _ (shrinking_removeFirstError V))

theorem good_clearErrorAt (d0 : Dom) (u : Nat) (d : Dom) (h : Good d0 d) :
    Good d0 (clearErrorAt u d) :=
  good_of_shrinking d0 _ (shrinking_clearErrorAt _ u) d h

theorem separate_congr (V : Nat → Bool) {a b : Dom} (h : shape a = shape b) :
    separate V a = separate V b := by
  rw [← separate_shape V a, ← separate_shape V b, h]

theorem good_showErrorAt (d0 : Dom) (hs : separate (validated d0) d0 = true) (v : Nat)
    (hv : validated d0 v = true) (t : String) (d : Dom) (h : Good d0 d) :
    Good d0 (showErrorAt v t d) := by
  rw [showErrorAt_eq]
  apply good_of_shrinking d0 _ (shrinking_setBorder _ v errorColor)
  apply good_of_shrinking d0 _ (shrinking_setBorder _ v "")
  have hr := refilling_append_remove t
  refine ⟨?_, ?_⟩
  · rw [shape_atParent v _ hr.shape_eq]; exact h.1
  · have hsd : separate (validated d0) d = true := by
      rw [separate_congr (validated d0) h.1]; exact hs
    have := refilling_excess (validated d0) v hv _ hr d hsd
    have h2 := h.2
    omega

theorem querySelectorId_congr {a b : Dom} (h : shape a = shape b) (id : String) :
    querySelectorId a id = querySelectorId b id := by
  rw [← querySelectorId_shape a, ← querySelectorId_shape b, h]

theorem showError_state (i : Option Nat) (t : String) (d : Dom) :
    (showError i t d).state = match i with
      | none => d
      | some u => showErrorAt u t d := by
  cases i <;> rfl

theorem good_showError (d0 : Dom) (hs : separate (validated d0) d0 = true) (i : Option Nat)
    (hi : ∀ u, i = some u → validated d0 u = true) (t : String) (d : Dom) (h : Good d0 d) :
    Good d0 (showError i t d).state := by
  rw [showError_state]
  cases i with
  | none => exact h
  | some u => exact good_showErrorAt d0 hs u (hi u rfl) t d h

theorem state_showError_then (i : Option Nat) (t : String) (d : Dom) :
    (match showError i t d with
      | Outcome.done _ d => (Outcome.done false d : Outcome Dom Bool)
      | Outcome.threw e d => Outcome.threw e d).state = (showError i t d).state := by
  cases showError i t d <;> rfl

theorem good_checkName (d0 : Dom) (hs : separate (validated d0) d0 = true) (x : Option JSString)
    (i : Option Nat) (hi : ∀ u, i = some u → validated d0 u = true) (b : Bool) (d : Dom)
    (h : Good d0 d) : Good d0 (checkName x i b d).state := by
  unfold checkName
  cases x with
  | none => exact h
  | some x =>
    dsimp only
    split
    · rw [state_showError_then]; exact good_showError d0 hs i hi _ d h
    · exact h

theorem good_checkEmail (d0 : Dom) (hs : separate (validated d0) d0 = true) (x : Option JSString)
    (i : Option Nat) (hi : ∀ u, i = some u → validated d0 u = true) (b : Bool) (d : Dom)
    (h : Good d0 d) : Good d0 (checkEmail x i b d).state := by
  unfold checkEmail
  cases x with
  | none => exact h
  | some x =>
    dsimp only
    split
    · rw [state_showError_then]; exact good_showError d0 hs i hi _ d h
    · split
      · rw [state_showError_then]; exact good_showError d0 hs i hi _ d h
      · exact h

theorem good_checkMessage (d0 : Dom) (hs : separate (validated d0) d0 = true)
    (x : Option JSString) (i : Option Nat) (hi : ∀ u, i = some u → validated d0 u = true)
    (b : Bool) (d : Dom) (h : Good d0 d) : Good d0 (checkMessage x i b d).state := by
  unfold checkMessage
  cases x with
  | none => exact h
  | some x =>
    dsimp only
    split
    · rw [state_showError_then]; exact good_showError d0 hs i hi _ d h
    · split
      · rw [state_showError_then]; exact good_showError d0 hs i hi _ d h
      · exact h

theorem good_foldl_clear (d0 : Dom) (l : List Control) (d : Dom) (h : Good d0 d) :
    Good d0 (l.foldl (fun d input => clearErrorAt input.uid d) d) := by
  induction l generalizing d with
  | nil => exact h
  | cons f l ih => exact ih _ (good_clearErrorAt d0 f.uid d h)

theorem good_clearAll (d0 : Dom) (d : Dom) (h : Good d0 d) : Good d0 (clearAll d) :=
  good_foldl_clear d0 _ d h

theorem validated_name (d0 d : Dom) (h : shape d = shape d0) (u : Nat)
    (hu : querySelectorId d "name" = some u) : validated d0 u = true := by
  rw [querySelectorId_congr h] at hu
  simp [validated, hu]

theorem validated_email (d0 d : Dom) (h : shape d = shape d0) (u : Nat)
    (hu : querySelectorId d "email" = some u) : validated d0 u = true := by
  rw [querySelectorId_congr h] at hu
  simp [validated, hu]

theorem validated_message (d0 d : Dom) (h : shape d = shape d0) (u : Nat)
    (hu : querySelectorId d "message" = some u) : validated d0 u = true := by
  rw [querySelectorId_congr h] at hu
  simp [validated, hu]

theorem good_validateForm (d0 : Dom) (hs : separate (validated d0) d0 = true) (d : Dom)
    (h : Good d0 d) : Good d0 (validateForm d).state := by
  have hc := good_clearAll d0 d h
  unfold validateForm
  dsimp only
  have h1 := good_checkName d0 hs (formDataGet d "name") (querySelectorId (clearAll d) "name")
    (validated_name d0 _ hc.1) true (clearAll d) hc
  cases e1 : checkName (formDataGet d "name") (querySelectorId (clearAll d) "name") true
      (clearAll d) with
  | threw e s => rw [e1] at h1; exact h1
  | done b1 s1 =>
    rw [e1] at h1
    dsimp only
    have h2 := good_checkEmail d0 hs (formDataGet d "email")
      (querySelectorId (clearAll d) "email") (validated_email d0 _ hc.1) b1 s1 h1
    cases e2 : checkEmail (formDataGet d "email") (querySelectorId (clearAll d) "email") b1 s1 with
    | threw e s => rw [e2] at h2; exact h2
    | done b2 s2 =>
      rw [e2] at h2
      exact good_checkMessage d0 hs (formDataGet d "message")
        (querySelectorId (clearAll d) "message") (validated_message d0 _ hc.1) b2 s2 h2

theorem good_mapFirstSubmit (d0 : Dom) (g : Button → Button)
    (hg : ∀ b, (g b).typeAttr = b.typeAttr) (d : Dom) (h : Good d0 d) :
    Good d0 (mapFirstSubmit g d) :=
  good_of_shrinking d0 _ (shrinking_mapFirstSubmit _ g hg) d h

theorem good_mapFields (d0 : Dom) (g : Control → Control)
    (hg : ∀ f, canon (g f) = canon f) (d : Dom) (h : Good d0 d) :
    Good d0 (mapFields g d) :=
  good_of_shrinking d0 _ (shrinking_mapFields _ g hg) d h

theorem good_showSuccessMessage (d0 : Dom) (s : State) (h : Good d0 s.form) :
    Good d0 (showSuccessMessage s).state.form := by
  unfold showSuccessMessage
  cases firstSubmit s.form with
  | none => exact h
  | some b =>
    dsimp only [Outcome.state]
    refine good_mapFirstSubmit d0 _ ?_ _ (good_mapFirstSubmit d0 _ ?_ _
      (good_mapFirstSubmit d0 _ ?_ _ h)) <;> intro b <;> rfl

theorem good_handleSubmit (d0 : Dom) (hs : separate (validated d0) d0 = true) (s : State)
    (h : Good d0 s.form) : Good d0 (handleSubmit s).state.form := by
  have hv := good_validateForm d0 hs s.form h
  unfold handleSubmit
  cases e : validateForm s.form with
  | threw e d => rw [e] at hv; exact hv
  | done b d =>
    rw [e] at hv
    cases b with
    | true => exact good_showSuccessMessage d0 _ hv
    | false => exact hv

theorem good_timeout (d0 : Dom) (t : String) (d : Dom) (h : Good d0 d) :
    Good d0 (timeout t d) := by
  unfold timeout reset
  dsimp only
  refine good_mapFields d0 _ ?_ _ (good_mapFirstSubmit d0 _ ?_ _
    (good_mapFirstSubmit d0 _ ?_ _ (good_mapFirstSubmit d0 _ ?_ _ h))) <;> intro b <;> rfl

theorem good_step (d0 : Dom) (hs : separate (validated d0) d0 = true) (ev : Event) (s : State)
    (h : Good d0 s.form) : Good d0 (step ev s).form := by
  cases ev with
  | input u v =>
    exact good_of_shrinking d0 _ (shrinking_mapFields _ _ (canon_setValue u v)) _ h
  | blur u =>
    unfold step
    dsimp only
    split
    · exact good_clearErrorAt d0 u _ h
    · exact h
  | submit => exact good_handleSubmit d0 hs s h
  | timer =>
    unfold step
    dsimp only
    cases s.timers with
    | nil => exact h
    | cons t p => exact good_timeout d0 t _ h

theorem good_run (d0 : Dom) (hs : separate (validated d0) d0 = true) (evs : List Event)
    (s : State) (h : Good d0 s.form) : Good d0 (run evs s).form := by
  induction evs generalizing s with
  | nil => exact h
  | cons ev evs ih => exact ih _ (good_step d0 hs ev s h)

theorem excessAux_le_count (V : Nat → Bool) (d : Dom) : excessAux V d ≤ countErrors d := by
  induction d with
  | nil => simp [excessAux]
  | field f r ih => simpa [excessAux, countErrors_field] using ih
  | error t r ih => simp only [excessAux, countErrors_error]; omega
  | button b r ih => simpa [excessAux, countErrors_button] using ih
  | box c r ihc ihr =>
    simp only [excessAux, countErrors_box]
    split <;> omega

theorem good_initial (d0 : Dom) (h : errorTexts d0 = []) : Good d0 d0 := by
  refine ⟨rfl, ?_⟩
  have h0 : countErrors d0 = 0 := by simp [countErrors, h]
  have := excessAux_le_count (validated d0) d0
  unfold excess
  split <;> omega

theorem levelsAux_count_le (d : Dom) : ∀ l ∈ levelsAux d, countErrors l ≤ countErrors d := by
  induction d with
  | nil => intro l hl; simp [levelsAux] at hl
  | field f r ih => intro l hl; exact ih l hl
  | error t r ih =>
    intro l hl
    have := ih l hl
    rw [countErrors_error]; omega
  | button b r ih => intro l hl; exact ih l hl
  | box c r ihc ihr =>
    intro l hl
    simp only [levelsAux, List.mem_cons, List.mem_append] at hl
    rw [countErrors_box]
    rcases hl with rfl | hl | hl
    · omega
    · have := ihc l hl; omega
    · have := ihr l hl; omega

theorem excessAux_levels (V : Nat → Bool) (d : Dom) (h : excessAux V d = 0) :
    ∀ l ∈ levelsAux d, hasVChild V l = true → countErrors l ≤ 1 := by
  induction d with
  | nil => intro l hl; simp [levelsAux] at hl
  | field f r ih => intro l hl; exact ih h l hl
  | error t r ih =>
    simp only [excessAux] at h
    omega
  | button b r ih => intro l hl; exact ih h l hl
  | box c r ihc ihr =>
    intro l hl hV
    simp only [levelsAux, List.mem_cons, List.mem_append] at hl
    simp only [excessAux] at h
    by_cases hc : hasVChild V c = true
    · simp only [hc, if_true] at h
      rcases hl with rfl | hl | hl
      · omega
      · have := levelsAux_count_le c l hl; omega
      · exact ihr (by omega) l hl hV
    · simp only [hc, if_false, Bool.false_eq_true] at h
      rcases hl with rfl | hl | hl
      · exact absurd hV hc
      · exact ihc (by omega) l hl hV
      · exact ihr (by omega) l hl hV

theorem excess_levels (V : Nat → Bool) (d : Dom) (h : excess V d = 0) :
    ∀ l ∈ levels d, hasVChild V l = true → countErrors l ≤ 1 := by
  intro l hl hV
  unfold excess at h
  simp only [levels, List.mem_cons] at hl
  by_cases hd : hasVChild V d = true
  · simp only [hd, if_true] at h
    rcases hl with rfl | hl
    · omega
    · have := levelsAux_count_le d l hl; omega
  · simp only [hd, if_false, Bool.false_eq_true] at h
    rcases hl with rfl | hl
    · exact absurd hV hd
    · exact excessAux_levels V d h l hl hV

theorem levelsAux_countV_le (V : Nat → Bool) (d : Dom) :
    ∀ l ∈ levelsAux d, countV V l ≤ countV V d := by
  induction d with
  | nil => intro l hl; simp [levelsAux] at hl
  | field f r ih =>
    intro l hl
    have := ih l hl
    rw [countV_field]; omega
  | error t r ih => intro l hl; exact ih l hl
  | button b r ih => intro l hl; exact ih l hl
  | box c r ihc ihr =>
    intro l hl
    simp only [levelsAux, List.mem_cons, List.mem_append] at hl
    rw [countV_box]
    rcases hl with rfl | hl | hl
    · omega
    · have := ihc l hl; omega
    · have := ihr l hl; omega

theorem levelsAux_single (V : Nat → Bool) (d : Dom) (hc : hasVChild V d = true)
    (h1 : countV V d ≤ 1) : ∀ l ∈ levelsAux d, countV V l = 0 := by
  induction d with
  | nil => intro l hl; simp [levelsAux] at hl
  | field f r ih =>
    intro l hl
    rw [countV_field] at h1
    simp only [hasVChild, Bool.or_eq_true] at hc
    by_cases hf : V f.uid = true
    · simp only [hf, if_true] at h1
      have := levelsAux_countV_le V r l hl
      omega
    · simp only [hf, if_false] at h1
      rcases hc with hc | hc
      · exact absurd hc hf
      · exact ih hc (by omega) l hl
  | error t r ih => intro l hl; exact ih hc h1 l hl
  | button b r ih => intro l hl; exact ih hc h1 l hl
  | box c r _ ihr =>
    intro l hl
    rw [countV_box] at h1
    have hcr : hasVChild V r = true := hc
    have := hasVChild_countV V r hcr
    simp only [levelsAux, List.mem_cons, List.mem_append] at hl
    rcases hl with rfl | hl | hl
    · omega
    · have := levelsAux_countV_le V c l hl; omega
    · exact ihr hcr (by omega) l hl

theorem isChild_countV (V : Nat → Bool) (v : Nat) (hv : V v = true) (d : Dom)
    (h : isChild v d = true) : 1 ≤ countV V d :=
  hasVChild_countV V d (isChild_hasVChild V v hv d h)

theorem two_children (V : Nat → Bool) (v w : Nat) (hv : V v = true) (hw : V w = true)
    (hne : v ≠ w) (d : Dom) (h1 : isChild v d = true) (h2 : isChild w d = true) :
    2 ≤ countV V d := by
  induction d with
  | nil => simp [isChild] at h1
  | field f r ih =>
    rw [countV_field]
    simp only [isChild, Bool.or_eq_true, beq_iff_eq] at h1 h2
    rcases h1 with h1 | h1 <;> rcases h2 with h2 | h2
    · exact absurd (h1.symm.trans h2) hne
    · have := isChild_countV V w hw r h2
      rw [h1, hv]; simp; omega
    · have := isChild_countV V v hv r h1
      rw [h2, hw]; simp; omega
    · have := ih h1 h2; omega
  | error t r ih => exact ih h1 h2
  | button b r ih => exact ih h1 h2
  | box c r _ ihr =>
    rw [countV_box]
    have := ihr h1 h2
    omega

theorem levelsAux_of_shape {a b : Dom} (h : shape a = shape b) :
    ∀ l ∈ levelsAux a, ∃ m ∈ levelsAux b, shape m = shape l := by
  intro l hl
  have h1 : shape l ∈ (levelsAux a).map shape := List.mem_map_of_mem _ hl
  rw [← levelsAux_shape, h, levelsAux_shape] at h1
  obtain ⟨m, hm, e⟩ := List.mem_map.mp h1
  exact ⟨m, hm, e⟩

theorem no_deep_child (V : Nat → Bool) (v : Nat) (hv : V v = true) {a c : Dom}
    (hs : shape a = shape c) (hc : hasVChild V c = true) (h1 : countV V c ≤ 1) :
    ∀ l ∈ levelsAux a, isChild v l = false := by
  intro l hl
  obtain ⟨m, hm, e⟩ := levelsAux_of_shape hs l hl
  have h0 := levelsAux_single V c hc h1 m hm
  by_contra hcon
  simp only [Bool.not_eq_false] at hcon
  rw [isChild_congr v e.symm] at hcon
  have := isChild_countV V v hv m hcon
  omega

theorem separateAt_le (V : Nat → Bool) (l : Dom) (hs : separateAt V l = true)
    (hc : hasVChild V l = true) : countV V l ≤ 1 := by
  simpa [separateAt, hc] using hs

theorem errorTexts_refill (t : String) (l : Dom) (h : countErrors l ≤ 1) :
    errorTexts ((appendError t ∘ removeFirstError) l) = [t] := by
  simp only [Function.comp, errorTexts_appendError, errorTexts_removeFirstError]
  unfold countErrors at h
  cases hE : errorTexts l with
  | nil => rfl
  | cons a r =>
    rw [hE] at h
    cases r with
    | nil => rfl
    | cons b r => simp at h

theorem annot_new_aux (V : Nat → Bool) (v : Nat) (hv : V v = true) (t : String) (d : Dom)
    (hs : (levelsAux d).all (separateAt V) = true)
    (hk : ∀ l ∈ levelsAux d, hasVChild V l = true → countErrors l ≤ 1) :
    ∀ l ∈ levelsAux (atParentAux v (appendError t ∘ removeFirstError) d),
      isChild v l = true → errorTexts l = [t] := by
  have hG := refilling_append_remove t
  induction d with
  | nil => intro l hl; simp [atParentAux, levelsAux] at hl
  | field f r ih => exact ih hs hk
  | error e r ih => exact ih hs hk
  | button b r ih => exact ih hs hk
  | box c r ihc ihr =>
    rw [all_levelsAux_box] at hs
    simp only [Bool.and_eq_true] at hs
    obtain ⟨hsc, hlc, hlr⟩ := hs
    have hkc : ∀ l ∈ levelsAux c, hasVChild V l = true → countErrors l ≤ 1 :=
      fun l hl => hk l (by simp [levelsAux, hl])
    have hkr : ∀ l ∈ levelsAux r, hasVChild V l = true → countErrors l ≤ 1 :=
      fun l hl => hk l (by simp [levelsAux, hl])
    intro l hl hch
    simp only [atParentAux, levelsAux, List.mem_cons, List.mem_append] at hl
    by_cases hvc : isChild v c = true
    · simp only [hvc, if_true] at hl
      have hVc := isChild_hasVChild V v hv c hvc
      rcases hl with rfl | hl | hl
      · exact errorTexts_refill t c (hk c (by simp [levelsAux]) hVc)
      · have := no_deep_child V v hv (hG.shape_eq c) hVc (separateAt_le V c hsc hVc) l hl
        rw [this] at hch
        exact Bool.noConfusion hch
      · exact ihr hlr hkr l hl hch
    · simp only [hvc, if_false, Bool.false_eq_true] at hl
      rcases hl with rfl | hl | hl
      · rw [isChild_congr v (shape_atParentAux v _ hG.shape_eq c)] at hch
        exact absurd hch hvc
      · exact ihc hlc hkc l hl hch
      · exact ihr hlr hkr l hl hch

theorem annot_new (V : Nat → Bool) (v : Nat) (hv : V v = true) (t : String) (d : Dom)
    (hs : separate V d = true)
    (hk : ∀ l ∈ levels d, hasVChild V l = true → countErrors l ≤ 1) :
    Annot v t (atParent v (appendError t ∘ removeFirstError) d) := by
  have hG := refilling_append_remove t
  unfold separate levels at hs
  rw [List.all_cons, Bool.and_eq_true] at hs
  obtain ⟨hsd, hl⟩ := hs
  have hka : ∀ l ∈ levelsAux d, hasVChild V l = true → countErrors l ≤ 1 :=
    fun l hl => hk l (by simp [levels, hl])
  intro l hlm hch
  unfold atParent at hlm
  simp only [levels, List.mem_cons] at hlm
  by_cases hvd : isChild v d = true
  · simp only [hvd, if_true] at hlm
    have hVd := isChild_hasVChild V v hv d hvd
    rcases hlm with rfl | hlm
    · exact errorTexts_refill t d (hk d (by simp [levels]) hVd)
    · have := no_deep_child V v hv (hG.shape_eq d) hVd (separateAt_le V d hsd hVd) l hlm
      rw [this] at hch
      exact Bool.noConfusion hch
  · simp only [hvd, if_false, Bool.false_eq_true] at hlm
    rcases hlm with rfl | hlm
    · rw [isChild_congr v (shape_atParentAux v _ hG.shape_eq d)] at hch
      exact absurd hch hvd
    · exact annot_new_aux V v hv t d hl hka l hlm hch

theorem annot_keep_aux (V : Nat → Bool) (v w : Nat) (hv : V v = true) (hw : V w = true)
    (hne : v ≠ w) (t : String) (g : Dom → Dom) (hg : ∀ x, shape (g x) = shape x) (d : Dom)
    (hs : (levelsAux d).all (separateAt V) = true)
    (ha : ∀ l ∈ levelsAux d, isChild v l = true → errorTexts l = [t]) :
    ∀ l ∈ levelsAux (atParentAux w g d), isChild v l = true → errorTexts l = [t] := by
  induction d with
  | nil => intro l hl; simp [atParentAux, levelsAux] at hl
  | field f r ih => exact ih hs ha
  | error e r ih => exact ih hs ha
  | button b r ih => exact ih hs ha
  | box c r ihc ihr =>
    rw [all_levelsAux_box] at hs
    simp only [Bool.and_eq_true] at hs
    obtain ⟨hsc, hlc, hlr⟩ := hs
    have hac : ∀ l ∈ levelsAux c, isChild v l = true → errorTexts l = [t] :=
      fun l hl => ha l (by simp [levelsAux, hl])
    have har : ∀ l ∈ levelsAux r, isChild v l = true → errorTexts l = [t] :=
      fun l hl => ha l (by simp [levelsAux, hl])
    intro l hl hch
    simp only [atParentAux, levelsAux, List.mem_cons, List.mem_append] at hl
    by_cases hwc : isChild w c = true
    · simp only [hwc, if_true] at hl
      have hVc := isChild_hasVChild V w hw c hwc
      have h1 := separateAt_le V c hsc hVc
      rcases hl with rfl | hl | hl
      · rw [isChild_congr v (hg c)] at hch
        have := two_children V v w hv hw hne c hch hwc
        omega
      · have := no_deep_child V v hv (hg c) hVc h1 l hl
        rw [this] at hch
        exact Bool.noConfusion hch
      · exact ihr hlr har l hl hch
    · simp only [hwc, if_false, Bool.false_eq_true] at hl
      rcases hl with rfl | hl | hl
      · rw [isChild_congr v (shape_atParentAux w g hg c)] at hch
        have hVc := isChild_hasVChild V v hv c hch
        rw [atParentAux_single V w hw g c hVc (separateAt_le V c hsc hVc)]
        exact ha c (by simp [levelsAux]) hch
      · exact ihc hlc hac l hl hch
      · exact ihr hlr har l hl hch

theorem annot_keep (V : Nat → Bool) (v w : Nat) (hv : V v = true) (hw : V w = true)
    (hne : v ≠ w) (t : String) (g : Dom → Dom) (hg : ∀ x, shape (g x) = shape x) (d : Dom)
    (hs : separate V d = true) (ha : Annot v t d) : Annot v t (atParent w g d) := by
  unfold separate levels at hs
  rw [List.all_cons, Bool.and_eq_true] at hs
  obtain ⟨hsd, hl⟩ := hs
  have haa : ∀ l ∈ levelsAux d, isChild v l = true → errorTexts l = [t] :=
    fun l hl => ha l (by simp [levels, hl])
  intro l hlm hch
  unfold atParent at hlm
  simp only [levels, List.mem_cons] at hlm
  by_cases hwd : isChild w d = true
  · simp only [hwd, if_true] at hlm
    have hVd := isChild_hasVChild V w hw d hwd
    have h1 := separateAt_le V d hsd hVd
    rcases hlm with rfl | hlm
    · rw [isChild_congr v (hg d)] at hch
      have := two_children V v w hv hw hne d hch hwd
      omega
    · have := no_deep_child V v hv (hg d) hVd h1 l hlm
      rw [this] at hch
      exact Bool.noConfusion hch
  · simp only [hwd, if_false, Bool.false_eq_true] at hlm
    rcases hlm with rfl | hlm
    · rw [isChild_congr v (shape_atParentAux w g hg d)] at hch
      have hVd := isChild_hasVChild V v hv d hch
      rw [atParentAux_single V w hw g d hVd (separateAt_le V d hsd hVd)]
      exact ha d (by simp [levels]) hch
    · exact annot_keep_aux V v w hv hw hne t g hg d hl haa l hlm hch

theorem levelsAux_mapFields (g : Control → Control) (d : Dom) :
    levelsAux (mapFields g d) = (levelsAux d).map (mapFields g) := by
  induction d with
  | nil => rfl
  | field f r ih => simp [levelsAux, mapFields, ih]
  | error t r ih => simp [levelsAux, mapFields, ih]
  | button b r ih => simp [levelsAux, mapFields, ih]
  | box c r ihc ihr => simp [levelsAux, mapFields, ihc, ihr]

theorem annot_mapFields (v : Nat) (t : String) (g : Control → Control)
    (hg : ∀ f, canon (g f) = canon f) (d : Dom) (ha : Annot v t d) :
    Annot v t (mapFields g d) := by
  intro l hl hch
  simp only [levels, List.mem_cons, levelsAux_mapFields, List.mem_map] at hl
  rcases hl with rfl | ⟨m, hm, rfl⟩
  · rw [errorTexts_mapFields]
    rw [isChild_congr v (shape_mapFields g hg d)] at hch
    exact ha d (by simp [levels]) hch
  · rw [errorTexts_mapFields]
    rw [isChild_congr v (shape_mapFields g hg m)] at hch
    exact ha m (by simp [levels, hm]) hch

theorem annot_showErrorAt_new (d0 : Dom) (hs : separate (validated d0) d0 = true) (v : Nat)
    (hv : validated d0 v = true) (t : String) (d : Dom) (h : Good d0 d) :
    Annot v t (showErrorAt v t d) := by
  rw [showErrorAt_eq]
  apply annot_mapFields v t _ (canon_setBorder v errorColor)
  apply annot_mapFields v t _ (canon_setBorder v "")
  have hsd : separate (validated d0) d = true := by
    rw [separate_congr (validated d0) h.1]; exact hs
  exact annot_new (validated d0) v hv t d hsd (excess_levels (validated d0) d h.2)

theorem annot_showErrorAt_keep (d0 : Dom) (hs : separate (validated d0) d0 = true) (v w : Nat)
    (hv : validated d0 v = true) (hw : validated d0 w = true) (hne : v ≠ w) (t t2 : String)
    (d : Dom) (h : Good d0 d) (ha : Annot v t d) : Annot v t (showErrorAt w t2 d) := by
  rw [showErrorAt_eq]
  apply annot_mapFields v t _ (canon_setBorder w errorColor)
  apply annot_mapFields v t _ (canon_setBorder w "")
  have hsd : separate (validated d0) d = true := by
    rw [separate_congr (validated d0) h.1]; exact hs
  exact annot_keep (validated d0) v w hv hw hne t _ (refilling_append_remove t2).shape_eq d hsd ha

theorem directV_zero (V : Nat → Bool) (d : Dom) (h : hasVChild V d = false) :
    directV V d = 0 := by
  induction d with
  | nil => rfl
  | field f r ih =>
    simp only [hasVChild, Bool.or_eq_false_iff] at h
    simp [directV, h.1, ih h.2]
  | error t r ih => exact ih h
  | button b r ih => exact ih h
  | box c r _ ihr => exact ihr h

theorem total_aux (V : Nat → Bool) (d : Dom)
    (hk : ∀ l ∈ levelsAux d, hasVChild V l = true → countErrors l = 1)
    (hx : excessAux V d = 0) (hs : (levelsAux d).all (separateAt V) = true) :
    countErrors d + directV V d = countV V d := by
  induction d with
  | nil => rfl
  | field f r ih =>
    have := ih hk hx hs
    rw [countErrors_field, countV_field]
    simp only [directV]
    omega
  | error t r _ =>
    simp only [excessAux] at hx
    omega
  | button b r ih => exact ih hk hx hs
  | box c r ihc ihr =>
    rw [all_levelsAux_box] at hs
    simp only [Bool.and_eq_true] at hs
    obtain ⟨hsc, hlc, hlr⟩ := hs
    have hkc : ∀ l ∈ levelsAux c, hasVChild V l = true → countErrors l = 1 :=
      fun l hl => hk l (by simp [levelsAux, hl])
    have hkr : ∀ l ∈ levelsAux r, hasVChild V l = true → countErrors l = 1 :=
      fun l hl => hk l (by simp [levelsAux, hl])
    simp only [excessAux] at hx
    have hr := ihr hkr (by omega) hlr
    rw [countErrors_box, countV_box]
    simp only [directV]
    by_cases hVc : hasVChild V c = true
    · have h1 := hk c (by simp [levelsAux]) hVc
      have h2 := separateAt_le V c hsc hVc
      have h3 := hasVChild_countV V c hVc
      omega
    · simp only [hVc, if_false, Bool.false_eq_true] at hx
      have hc := ihc hkc (by omega) hlc
      have hz := directV_zero V c (by simpa using hVc)
      omega

theorem total_count (V : Nat → Bool) (d : Dom)
    (hk : ∀ l ∈ levels d, hasVChild V l = true → countErrors l = 1)
    (hx : excess V d = 0) (hs : separate V d = true) : countErrors d = countV V d := by
  unfold separate levels at hs
  rw [List.all_cons, Bool.and_eq_true] at hs
  obtain ⟨hsd, hl⟩ := hs
  unfold excess at hx
  by_cases hVd : hasVChild V d = true
  · have h1 := hk d (by simp [levels]) hVd
    have h2 := separateAt_le V d hsd hVd
    have h3 := hasVChild_countV V d hVd
    omega
  · simp only [hVd, if_false, Bool.false_eq_true] at hx
    have := total_aux V d (fun l hl => hk l (by simp [levels, hl])) hx hl
    have hz := directV_zero V d (by simpa using hVd)
    omega

theorem hasVChild_exists (V : Nat → Bool) (d : Dom) (h : hasVChild V d = true) :
    ∃ u, V u = true ∧ isChild u d = true := by
  induction d with
  | nil => simp [hasVChild] at h
  | field f r ih =>
    simp only [hasVChild, Bool.or_eq_true] at h
    rcases h with h | h
    · exact ⟨f.uid, h, by simp [isChild]⟩
    · obtain ⟨u, hu, hc⟩ := ih h
      exact ⟨u, hu, by simp [isChild, hc]⟩
  | error t r ih => exact ih h
  | button b r ih => exact ih h
  | box c r _ ihr => exact ihr h

theorem querySelectorId_some (d : Dom) (id : String) (u : Nat)
    (h : querySelectorId d id = some u) : ∃ f ∈ fields d, f.idAttr = id ∧ f.uid = u := by
  unfold querySelectorId at h
  cases hf : List.find? (fun f => f.idAttr == id) (fields d) with
  | none => rw [hf] at h; simp at h
  | some f =>
    rw [hf] at h
    simp only [Option.map_some', Option.some.injEq] at h
    have h1 := List.find?_some hf
    exact ⟨f, List.mem_of_find?_eq_some hf, by simpa using h1, h⟩

theorem distinct_ids (d : Dom) (hnd : ((fields d).map (fun f => f.uid)).Nodup) (a b : String)
    (hab : a ≠ b) (u w : Nat) (hu : querySelectorId d a = some u)
    (hw : querySelectorId d b = some w) : u ≠ w := by
  obtain ⟨f, hf, hfa, hfu⟩ := querySelectorId_some d a u hu
  obtain ⟨g, hg, hgb, hgw⟩ := querySelectorId_some d b w hw
  intro e
  have : f = g := List.inj_on_of_nodup_map hnd hf hg (by rw [hfu, hgw, e])
  rw [this] at hfa
  exact hab (hfa.symm.trans hgb)

theorem validated_iff (d : Dom) (n e m : Nat) (hn : querySelectorId d "name" = some n)
    (he : querySelectorId d "email" = some e) (hm : querySelectorId d "message" = some m)
    (u : Nat) : validated d u = true ↔ u ∈ [n, e, m] := by
  unfold validated
  rw [hn, he, hm]
  simp only [Bool.or_eq_true, beq_iff_eq, Option.some.injEq, List.mem_cons, List.mem_singleton,
    List.not_mem_nil, or_false]
  constructor
  · rintro ((h | h) | h)
    · exact Or.inl h.symm
    · exact Or.inr (Or.inl h.symm)
    · exact Or.inr (Or.inr h.symm)
  · rintro (h | h | h)
    · exact Or.inl (Or.inl h.symm)
    · exact Or.inl (Or.inr h.symm)
    · exact Or.inr h.symm

theorem countV_three (d : Dom) (hnd : ((fields d).map (fun f => f.uid)).Nodup) (n e m : Nat)
    (hn : querySelectorId d "name" = some n) (he : querySelectorId d "email" = some e)
    (hm : querySelectorId d "message" = some m) : countV (validated d) d = 3 := by
  have hne : n ≠ e := distinct_ids d hnd "name" "email" (by decide) n e hn he
  have hnm : n ≠ m := distinct_ids d hnd "name" "message" (by decide) n m hn hm
  have hem : e ≠ m := distinct_ids d hnd "email" "message" (by decide) e m he hm
  have mem : ∀ id u, querySelectorId d id = some u → u ∈ (fields d).map (fun f => f.uid) := by
    intro id u h
    obtain ⟨f, hf, -, hfu⟩ := querySelectorId_some d id u h
    exact List.mem_map.mpr ⟨f, hf, hfu⟩
  have hlen : countV (validated d) d
      = (((fields d).map (fun f => f.uid)).filter (validated d)).length := by
    unfold countV
    rw [List.filter_map, List.length_map]
    rfl
  rw [hlen]
  have hp : (((fields d).map (fun f => f.uid)).filter (validated d)).Perm [n, e, m] := by
    rw [List.perm_ext_iff_of_nodup (hnd.filter _) (by simp [hne, hnm, hem])]
    intro u
    rw [List.mem_filter, validated_iff d n e m hn he hm]
    constructor
    · exact fun h => h.2
    · intro h
      refine ⟨?_, h⟩
      simp only [List.mem_cons, List.mem_singleton, List.not_mem_nil, or_false] at h
      rcases h with rfl | rfl | rfl
      · exact mem _ _ hn
      · exact mem _ _ he
      · exact mem _ _ hm
  rw [hp.length_eq]
  rfl

theorem validateForm_empty (d : Dom) (n e m : Nat)
    (vn : formDataGet d "name" = some []) (ve : formDataGet d "email" = some [])
    (vm : formDataGet d "message" = some [])
    (hn : querySelectorId (clearAll d) "name" = some n)
    (he : querySelectorId (clearAll d) "email" = some e)
    (hm : querySelectorId (clearAll d) "message" = some m) :
    validateForm d = Outcome.done false
      (showErrorAt m "Message is required" (showErrorAt e "Email is required"
        (showErrorAt n "Name is required" (clearAll d)))) := by
  have hreq : validateRequired [] = false := by decide
  unfold validateForm
  simp only [vn, ve, vm, hn, he, hm, checkName, checkEmail, checkMessage, hreq, showError,
    clearError]
  rfl

theorem validateRequired_iff (x : JSString) : validateRequired x = true ↔ trim x ≠ [] := by
  unfold validateRequired
  simp [List.length_pos]

theorem then_false_ne (o : Outcome Dom Unit) (d : Dom) :
    (match o with
      | Outcome.done _ d => (Outcome.done false d : Outcome Dom Bool)
      | Outcome.threw e d => Outcome.threw e d) ≠ Outcome.done true d := by
  cases o <;> simp

theorem checkName_true (x : JSString) (i : Option Nat) (b : Bool) (d d1 : Dom) :
    checkName (some x) i b d = Outcome.done true d1 ↔
      (validateRequired x = true ∧ b = true ∧ d1 = d) := by
  unfold checkName
  by_cases h : validateRequired x = true
  · simp [h, eq_comm]
  · simp only [h, Bool.not_eq_true] at *
    simp [h, then_false_ne]

theorem checkEmail_true (x : JSString) (i : Option Nat) (b : Bool) (d d1 : Dom) :
    checkEmail (some x) i b d = Outcome.done true d1 ↔
      (validateRequired x = true ∧ validateEmail x = true ∧ b = true ∧ d1 = d) := by
  unfold checkEmail
  by_cases h : validateRequired x = true
  · by_cases h2 : validateEmail x = true
    · simp [h, h2, eq_comm]
    · simp only [Bool.not_eq_true] at h2
      simp [h, h2, then_false_ne]
  · simp only [Bool.not_eq_true] at h
    simp [h, then_false_ne]

theorem checkMessage_true (x : JSString) (i : Option Nat) (b : Bool) (d d1 : Dom) :
    checkMessage (some x) i b d = Outcome.done true d1 ↔
      (validateRequired x = true ∧ 10 ≤ x.length ∧ b = true ∧ d1 = d) := by
  unfold checkMessage
  by_cases h : validateRequired x = true
  · by_cases h2 : x.length < 10
    · have h3 : ¬ 10 ≤ x.length := by omega
      simp [h, h2, h3, then_false_ne]
    · have h3 : 10 ≤ x.length := by omega
      simp [h, h2, h3, eq_comm]
  · simp only [Bool.not_eq_true] at h
    simp [h, then_false_ne]

theorem validateForm_true_iff (form : Dom) (name email message : JSString)
    (hn : formDataGet form "name" = some name) (he : formDataGet form "email" = some email)
    (hm : formDataGet form "message" = some message) (d1 : Dom) :
    validateForm form = Outcome.done true d1 ↔
      (validateRequired name = true ∧ validateRequired email = true ∧
        validateEmail email = true ∧ validateRequired message = true ∧ 10 ≤ message.length ∧
        d1 = clearAll form) := by
  unfold validateForm
  simp only [hn, he, hm]
  constructor
  · intro h
    cases e1 : checkName (some name) (querySelectorId (clearAll form) "name") true
        (clearAll form) with
    | threw e s => rw [e1] at h; simp at h
    | done b1 s1 =>
      rw [e1] at h
      dsimp only at h
      cases e2 : checkEmail (some email) (querySelectorId (clearAll form) "email") b1 s1 with
      | threw e s => rw [e2] at h; simp at h
      | done b2 s2 =>
        rw [e2] at h
        dsimp only at h
        obtain ⟨m1, m2, m3, m4⟩ := (checkMessage_true _ _ _ _ _).mp h
        subst m3
        obtain ⟨k1, k2, k3, k4⟩ := (checkEmail_true _ _ _ _ _).mp e2
        subst k3
        obtain ⟨j1, -, j3⟩ := (checkName_true _ _ _ _ _).mp e1
        exact ⟨j1, k1, k2, m1, m2, by rw [m4, k4, j3]⟩
  · rintro ⟨j1, k1, k2, m1, m2, rfl⟩
    rw [(checkName_true name _ true (clearAll form) (clearAll form)).mpr ⟨j1, rfl, rfl⟩]
    dsimp only
    rw [(checkEmail_true email _ true (clearAll form) (clearAll form)).mpr ⟨k1, k2, rfl, rfl⟩]
    dsimp only
    exact (checkMessage_true message _ true (clearAll form) (clearAll form)).mpr
      ⟨m1, m2, rfl, rfl⟩

theorem firstSubmit_mapFirstSubmit (g : Button → Button) (hg : ∀ b, (g b).typeAttr = b.typeAttr)
    (d : Dom) : firstSubmit (mapFirstSubmit g d) = (firstSubmit d).map g := by
  induction d with
  | nil => rfl
  | field f r ih => simpa [firstSubmit, mapFirstSubmit] using ih
  | error t r ih => simpa [firstSubmit, mapFirstSubmit] using ih
  | button c r ih =>
    simp only [firstSubmit, mapFirstSubmit]
    by_cases hc : isSubmitType c.typeAttr = true
    · simp [hc, firstSubmit, hg]
    · simp [hc, firstSubmit, ih]
  | box c r ihc ihr =>
    simp only [firstSubmit, mapFirstSubmit]
    cases hc : firstSubmit c with
    | none => simp [firstSubmit, hc, ihr]
    | some x => simp [firstSubmit, hc, ihc]

theorem firstSubmit_mapFields (g : Control → Control) (d : Dom) :
    firstSubmit (mapFields g d) = firstSubmit d := by
  induction d with
  | nil => rfl
  | field f r ih => simpa [firstSubmit, mapFields] using ih
  | error t r ih => simpa [firstSubmit, mapFields] using ih
  | button c r ih => simp [firstSubmit, mapFields, ih]
  | box c r ihc ihr => simp [firstSubmit, mapFields, ihc, ihr]

theorem fields_mapFields (g : Control → Control) (d : Dom) :
    fields (mapFields g d) = (fields d).map g := by
  induction d with
  | nil => rfl
  | field f r ih => simp [fields, mapFields, ih]
  | error t r ih => simp [fields, mapFields, ih]
  | button c r ih => simp [fields, mapFields, ih]
  | box c r ihc ihr => simp [fields, mapFields, ihc, ihr]

theorem showSuccessMessage_spec (s : State) (b : Button) (hb : firstSubmit s.form = some b) :
    firstSubmit (showSuccessMessage s).state.form
        = some { b with textContent := "Message Sent!", background := "var(--color-success-500)",
                        disabled := true } ∧
    (showSuccessMessage s).state.timers = s.timers ++ [b.textContent] := by
  unfold showSuccessMessage
  rw [hb]
  dsimp only [Outcome.state]
  constructor
  · rw [firstSubmit_mapFirstSubmit, firstSubmit_mapFirstSubmit, firstSubmit_mapFirstSubmit, hb]
    · rfl
    all_goals intro c; rfl
  · trivial

theorem timeout_spec (t : String) (d : Dom) (b : Button) (hb : firstSubmit d = some b) :
    firstSubmit (timeout t d)
        = some { b with textContent := t, background := "", disabled := false } ∧
    ∀ f ∈ fields (timeout t d), f.value = f.defaultValue := by
  unfold timeout reset
  dsimp only
  constructor
  · rw [firstSubmit_mapFields, firstSubmit_mapFirstSubmit, firstSubmit_mapFirstSubmit,
      firstSubmit_mapFirstSubmit, hb]
    · rfl
    all_goals intro c; rfl
  · intro f hf
    rw [fields_mapFields] at hf
    obtain ⟨g, -, rfl⟩ := List.mem_map.mp hf
    rfl

theorem value_true_iff (o : Outcome Dom Bool) :
    o.value? = some true ↔ o = Outcome.done true o.state := by
  cases o with
  | threw e d => simp [Outcome.value?]
  | done b d => cases b <;> simp [Outcome.value?, Outcome.state]

theorem firstSubmit_removeFirstError (d : Dom) :
    firstSubmit (removeFirstError d) = firstSubmit d := by
  induction d with
  | nil => rfl
  | field f r ih => simpa [firstSubmit, removeFirstError] using ih
  | error t r _ => simp [firstSubmit, removeFirstError]
  | button c r ih => simp [firstSubmit, removeFirstError, ih]
  | box c r ihc ihr =>
    simp only [removeFirstError]
    split <;> simp [firstSubmit, ihc, ihr]

theorem firstSubmit_atParentAux (u : Nat) (g : Dom → Dom)
    (hg : ∀ x, firstSubmit (g x) = firstSubmit x) (d : Dom) :
    firstSubmit (atParentAux u g d) = firstSubmit d := by
  induction d with
  | nil => rfl
  | field f r ih => simpa [firstSubmit, atParentAux] using ih
  | error t r ih => simpa [firstSubmit, atParentAux] using ih
  | button c r ih => simp [firstSubmit, atParentAux, ih]
  | box c r ihc ihr =>
    simp only [atParentAux]
    split <;> simp [firstSubmit, ihc, ihr, hg]

theorem firstSubmit_clearErrorAt (u : Nat) (d : Dom) :
    firstSubmit (clearErrorAt u d) = firstSubmit d := by
  unfold clearErrorAt setBorder atParent
  rw [firstSubmit_mapFields]
  split
  · exact firstSubmit_removeFirstError d
  · exact firstSubmit_atParentAux u _ firstSubmit_removeFirstError d

theorem firstSubmit_clearAll (d : Dom) : firstSubmit (clearAll d) = firstSubmit d := by
  unfold clearAll
  generalize fields d = l
  induction l generalizing d with
  | nil => rfl
  | cons f l ih => rw [List.foldl_cons, ih, firstSubmit_clearErrorAt]

theorem step_edit (ev : Event) (h : isEdit ev = true) (s : State) :
    firstSubmit (step ev s).form = firstSubmit s.form ∧ (step ev s).timers = s.timers := by
  cases ev with
  | input u v => exact ⟨firstSubmit_mapFields _ _, rfl⟩
  | blur u =>
    unfold step
    dsimp only
    split
    · exact ⟨firstSubmit_clearErrorAt u _, rfl⟩
    · exact ⟨rfl, rfl⟩
  | submit => simp [isEdit] at h
  | timer => simp [isEdit] at h

theorem run_edits (edits : List Event) (h : edits.all isEdit = true) (s : State) :
    firstSubmit (run edits s).form = firstSubmit s.form ∧ (run edits s).timers = s.timers := by
  induction edits generalizing s with
  | nil => exact ⟨rfl, rfl⟩
  | cons ev evs ih =>
    simp only [List.all_cons, Bool.and_eq_true] at h
    have h1 := step_edit ev h.1 s
    have h2 := ih h.2 (step ev s)
    exact ⟨h2.1.trans h1.1, h2.2.trans h1.2⟩

theorem validateForm_done_true (d d1 : Dom) (h : validateForm d = Outcome.done true d1) :
    d1 = clearAll d := by
  cases hn : formDataGet d "name" with
  | none => simp [validateForm, hn, checkName] at h
  | some name =>
    cases he : formDataGet d "email" with
    | none =>
      unfold validateForm at h
      simp only [hn, he] at h
      cases e1 : checkName (some name) (querySelectorId (clearAll d) "name") true (clearAll d) with
      | threw e s => rw [e1] at h; simp at h
      | done b s => rw [e1] at h; simp [checkEmail] at h
    | some email =>
      cases hm : formDataGet d "message" with
      | none =>
        unfold validateForm at h
        simp only [hn, he, hm] at h
        cases e1 : checkName (some name) (querySelectorId (clearAll d) "name") true
            (clearAll d) with
        | threw e s => rw [e1] at h; simp at h
        | done b s =>
          rw [e1] at h
          dsimp only at h
          cases e2 : checkEmail (some email) (querySelectorId (clearAll d) "email") b s with
          | threw e s => rw [e2] at h; simp at h
          | done b2 s2 => rw [e2] at h; simp [checkMessage] at h
      | some message =>
        exact ((validateForm_true_iff d name email message hn he hm d1).mp h).2.2.2.2.2

theorem submit_valid (s : State) (b : Button) (hb : firstSubmit s.form = some b)
    (hv : (validateForm s.form).value? = some true) :
    firstSubmit (step Event.submit s).form
        = some { b with textContent := "Message Sent!", background := "var(--color-success-500)",
                        disabled := true } ∧
    (step Event.submit s).timers = s.timers ++ [b.textContent] := by
  rw [value_true_iff] at hv
  have hd := validateForm_done_true _ _ hv
  have hb1 : firstSubmit ({ s with form := clearAll s.form } : State).form = some b := by
    rw [← hb]; exact firstSubmit_clearAll s.form
  have hs := showSuccessMessage_spec { s with form := clearAll s.form } b hb1
  have e : step Event.submit s = (showSuccessMessage { s with form := clearAll s.form }).state := by
    unfold step handleSubmit
    dsimp only
    rw [hv, hd]
  rw [e]
  exact hs

theorem submitRound_spec (edits : List Event) (s : State) (b : Button)
    (hb : firstSubmit s.form = some b) (ht : s.timers = [])
    (he : edits.all isEdit = true)
    (hv : (validateForm (run edits s).form).value? = some true) :
    firstSubmit (step Event.submit (run edits s)).form
        = some { b with textContent := "Message Sent!", background := "var(--color-success-500)",
                        disabled := true } ∧
    (step Event.submit (run edits s)).timers = [b.textContent] ∧
    firstSubmit (submitRound edits s).form = some { b with background := "", disabled := false } ∧
    (submitRound edits s).timers = [] ∧
    ∀ f ∈ fields (submitRound edits s).form, f.value = f.defaultValue := by
  have hr := run_edits edits he s
  have h1 := submit_valid (run edits s) b (hr.1.trans hb) hv
  rw [hr.2, ht, List.nil_append] at h1
  refine ⟨h1.1, h1.2, ?_⟩
  have h2 := timeout_spec b.textContent (step Event.submit (run edits s)).form _ h1.1
  have e : submitRound edits s
      = { form := (timeout b.textContent (step Event.submit (run edits s)).form),
          timers := [] } := by
    unfold submitRound
    generalize step Event.submit (run edits s) = s2 at h1
    unfold step
    dsimp only
    rw [h1.2]
  rw [e]
  exact ⟨h2.1, rfl, h2.2⟩

theorem runRounds_button (rounds : List (List Event)) (s : State) (b : Button)
    (hb : firstSubmit s.form = some b) (ht : s.timers = [])
    (hr : validRounds rounds s = true) :
    ∃ c, firstSubmit (runRounds rounds s).form = some c ∧ c.textContent = b.textContent ∧
      c.typeAttr = b.typeAttr ∧ (runRounds rounds s).timers = [] := by
  induction rounds generalizing s b with
  | nil => exact ⟨b, hb, rfl, rfl, ht⟩
  | cons edits rounds ih =>
    simp only [validRounds, Bool.and_eq_true, beq_iff_eq] at hr
    obtain ⟨⟨he, hv⟩, hrest⟩ := hr
    have h := submitRound_spec edits s b hb ht he hv
    obtain ⟨c, hc, h1, h2, h3⟩ := ih (submitRound edits s) _ h.2.2.1 h.2.2.2.1 hrest
    exact ⟨c, hc, h1, h2, h3⟩

end FormLemmas

/-! ## The contract -/

section Contract

open Dom FormValidator Example

/-- C1: in both classes `validateEmail` returns true exactly for the strings that split as
`a ++ "@" ++ b ++ "." ++ c` with `a`, `b`, `c` non-empty and free of white space and of `@`;
it accepts `a@b.com` and rejects `abc` and the empty string. -/
theorem validateEmail_accepts_exactly_the_pattern (s : JSString) :
    (FormValidator.validateEmail s = true ↔ EmailShape s) ∧
    (NewsletterForm.validateEmail s = true ↔ EmailShape s) ∧
    FormValidator.validateEmail (js "a@b.com") = true ∧
    NewsletterForm.validateEmail (js "a@b.com") = true ∧
    FormValidator.validateEmail (js "abc") = false ∧
    NewsletterForm.validateEmail (js "abc") = false ∧
    FormValidator.validateEmail (js "") = false ∧
    NewsletterForm.validateEmail (js "") = false :=
  ⟨regexTest_emailRe_iff s, regexTest_emailRe_iff s, by decide, by decide, by decide, by decide,
    by decide, by decide⟩

/-- C2: for a form that supplies the three values, `validateForm` returns true exactly when
the name, the email and the message are non-empty after trimming, the email matches the
pattern and the message has at least 10 code units; `handleSubmit` then continues with
`showSuccessMessage`, and otherwise does nothing beyond `validateForm`. -/
theorem submission_succeeds_iff_all_checks_pass (form : Dom) (timers : List String)
    (name email message : JSString)
    (hn : formDataGet form "name" = some name) (he : formDataGet form "email" = some email)
    (hm : formDataGet form "message" = some message) :
    ((validateForm form).value? = some true ↔
      (trim name ≠ [] ∧ trim email ≠ [] ∧ FormValidator.validateEmail email = true ∧
        trim message ≠ [] ∧ 10 ≤ message.length)) ∧
    ((validateForm form).value? = some true →
      handleSubmit { form := form, timers := timers }
        = showSuccessMessage { form := (validateForm form).state, timers := timers }) ∧
    ((validateForm form).value? ≠ some true →
      (handleSubmit { form := form, timers := timers }).state
        = { form := (validateForm form).state, timers := timers }) := by
  refine ⟨?_, ?_, ?_⟩
  · rw [value_true_iff, validateForm_true_iff form name email message hn he hm]
    constructor
    · rintro ⟨a, b, c, d, e, -⟩
      exact ⟨(validateRequired_iff _).mp a, (validateRequired_iff _).mp b, c,
        (validateRequired_iff _).mp d, e⟩
    · rintro ⟨a, b, c, d, e⟩
      have h := (validateForm_true_iff form name email message hn he hm (clearAll form)).mpr
        ⟨(validateRequired_iff _).mpr a, (validateRequired_iff _).mpr b, c,
          (validateRequired_iff _).mpr d, e, rfl⟩
      refine ⟨(validateRequired_iff _).mpr a, (validateRequired_iff _).mpr b, c,
        (validateRequired_iff _).mpr d, e, ?_⟩
      rw [h]; rfl
  · intro h
    rw [value_true_iff] at h
    unfold handleSubmit
    rw [h]
    rfl
  · intro h
    unfold handleSubmit
    cases e : validateForm form with
    | threw e d => rfl
    | done b d =>
      cases b with
      | false => rfl
      | true => rw [e] at h; exact absurd rfl h

theorem submission_succeeds_iff_all_checks_pass_witness :
    (validateForm (grouped "Ann" "a@b.com" "hello world")).value? = some true :=
  (submission_succeeds_iff_all_checks_pass (grouped "Ann" "a@b.com" "hello world") []
    (js "Ann") (js "a@b.com") (js "hello world") (by decide) (by decide) (by decide)).1.mpr
    (by decide)

/-- C3, as the code has it: with a valid name and a valid email, every message of length 9 is
rejected, and a message of length 10 is accepted when it is non-empty after trimming. -/
theorem message_length_boundary (form : Dom) (name email message : JSString)
    (hn : formDataGet form "name" = some name) (he : formDataGet form "email" = some email)
    (hm : formDataGet form "message" = some message)
    (vn : validateRequired name = true) (ve : validateRequired email = true)
    (vp : FormValidator.validateEmail email = true) :
    (message.length = 9 → (validateForm form).value? ≠ some true) ∧
    (message.length = 10 → trim message ≠ [] → (validateForm form).value? = some true) := by
  constructor
  · intro h9 h
    rw [value_true_iff, validateForm_true_iff form name email message hn he hm] at h
    obtain ⟨-, -, -, -, e, -⟩ := h
    omega
  · intro h10 ht
    have h := (validateForm_true_iff form name email message hn he hm (clearAll form)).mpr
      ⟨vn, ve, vp, (validateRequired_iff _).mpr ht, by omega, rfl⟩
    rw [h]; rfl

theorem message_length_boundary_witness :
    (validateForm (grouped "Ann" "a@b.com" "123456789")).value? ≠ some true ∧
    (validateForm (grouped "Ann" "a@b.com" "1234567890")).value? = some true :=
  ⟨(message_length_boundary (grouped "Ann" "a@b.com" "123456789") (js "Ann") (js "a@b.com")
      (js "123456789") (by decide) (by decide) (by decide) (by decide) (by decide)
      (by decide)).1 (by decide),
   (message_length_boundary (grouped "Ann" "a@b.com" "1234567890") (js "Ann") (js "a@b.com")
      (js "1234567890") (by decide) (by decide) (by decide) (by decide) (by decide)
      (by decide)).2 (by decide) (by decide)⟩

/-- C3 fails as stated: a message of ten blanks has length 10 and is rejected, with a valid
name and a valid email. -/
theorem ten_blanks_message_rejected :
    (js "          ").length = 10 ∧
    formDataGet (grouped "Ann" "a@b.com" "          ") "message" = some (js "          ") ∧
    validateRequired (js "Ann") = true ∧ validateRequired (js "a@b.com") = true ∧
    FormValidator.validateEmail (js "a@b.com") = true ∧
    (validateForm (grouped "Ann" "a@b.com" "          ")).value? = some false ∧
    errorTexts (validateForm (grouped "Ann" "a@b.com" "          ")).state
      = ["Message is required"] := by
  decide

/-- C4, as the code has it: let the loaded form show no annotation, let its controls be
distinct objects, and let the parent element of each of `#name`, `#email`, `#message` contain
none of the other two. In every state reached from it, submitting with the three values empty
makes `validateForm` return false, `handleSubmit` stop there, and leaves exactly three
annotations: the parent of each control holds one, with the message of that control. -/
theorem empty_submit_leaves_three_annotations (d0 : Dom) (evs : List Event) (n e m : Nat)
    (hsep : separate (validated d0) d0 = true) (h0 : errorTexts d0 = [])
    (hnd : ((fields d0).map (fun f => f.uid)).Nodup)
    (hn : querySelectorId d0 "name" = some n) (he : querySelectorId d0 "email" = some e)
    (hm : querySelectorId d0 "message" = some m)
    (vn : formDataGet (run evs { form := d0, timers := [] }).form "name" = some [])
    (ve : formDataGet (run evs { form := d0, timers := [] }).form "email" = some [])
    (vm : formDataGet (run evs { form := d0, timers := [] }).form "message" = some []) :
    validateForm (run evs { form := d0, timers := [] }).form
        = Outcome.done false (validateForm (run evs { form := d0, timers := [] }).form).state ∧
    handleSubmit (run evs { form := d0, timers := [] })
        = Outcome.done ()
            { form := (validateForm (run evs { form := d0, timers := [] }).form).state,
              timers := (run evs { form := d0, timers := [] }).timers } ∧
    countErrors (validateForm (run evs { form := d0, timers := [] }).form).state = 3 ∧
    Annot n "Name is required" (validateForm (run evs { form := d0, timers := [] }).form).state ∧
    Annot e "Email is required" (validateForm (run evs { form := d0, timers := [] }).form).state ∧
    Annot m "Message is required"
      (validateForm (run evs { form := d0, timers := [] }).form).state := by
  generalize hS : run evs { form := d0, timers := [] } = s at *
  have hg : Good d0 s.form := by
    rw [← hS]; exact good_run d0 hsep evs _ (good_initial d0 h0)
  have hg1 := good_clearAll d0 s.form hg
  have Vn : validated d0 n = true := (validated_iff d0 n e m hn he hm n).mpr (by simp)
  have Ve : validated d0 e = true := (validated_iff d0 n e m hn he hm e).mpr (by simp)
  have Vm : validated d0 m = true := (validated_iff d0 n e m hn he hm m).mpr (by simp)
  have hne : n ≠ e := distinct_ids d0 hnd "name" "email" (by decide) n e hn he
  have hnm : n ≠ m := distinct_ids d0 hnd "name" "message" (by decide) n m hn hm
  have hem : e ≠ m := distinct_ids d0 hnd "email" "message" (by decide) e m he hm
  have hv := validateForm_empty s.form n e m vn ve vm
    (by rw [querySelectorId_congr hg1.1]; exact hn)
    (by rw [querySelectorId_congr hg1.1]; exact he)
    (by rw [querySelectorId_congr hg1.1]; exact hm)
  have hg2 := good_showErrorAt d0 hsep n Vn "Name is required" _ hg1
  have hg3 := good_showErrorAt d0 hsep e Ve "Email is required" _ hg2
  have hg4 := good_showErrorAt d0 hsep m Vm "Message is required" _ hg3
  have an2 := annot_showErrorAt_new d0 hsep n Vn "Name is required" _ hg1
  have an3 := annot_showErrorAt_keep d0 hsep n e Vn Ve hne "Name is required"
    "Email is required" _ hg2 an2
  have an4 := annot_showErrorAt_keep d0 hsep n m Vn Vm hnm "Name is required"
    "Message is required" _ hg3 an3
  have ae3 := annot_showErrorAt_new d0 hsep e Ve "Email is required" _ hg2
  have ae4 := annot_showErrorAt_keep d0 hsep e m Ve Vm hem "Email is required"
    "Message is required" _ hg3 ae3
  have am4 := annot_showErrorAt_new d0 hsep m Vm "Message is required" _ hg3
  rw [hv]
  simp only [Outcome.state]
  refine ⟨trivial, ?_, ?_, an4, ae4, am4⟩
  · unfold handleSubmit
    rw [hv]
  · have hk : ∀ l ∈ levels (showErrorAt m "Message is required"
        (showErrorAt e "Email is required" (showErrorAt n "Name is required" (clearAll s.form)))),
        hasVChild (validated d0) l = true → countErrors l = 1 := by
      intro l hl hV
      obtain ⟨u, hu, hc⟩ := hasVChild_exists _ l hV
      rw [validated_iff d0 n e m hn he hm] at hu
      simp only [List.mem_cons, List.mem_singleton, List.not_mem_nil, or_false] at hu
      unfold countErrors
      rcases hu with rfl | rfl | rfl
      · rw [an4 l hl hc]; rfl
      · rw [ae4 l hl hc]; rfl
      · rw [am4 l hl hc]; rfl
    have hs4 : separate (validated d0) (showErrorAt m "Message is required"
        (showErrorAt e "Email is required" (showErrorAt n "Name is required" (clearAll s.form))))
        = true := by
      rw [separate_congr (validated d0) hg4.1]; exact hsep
    rw [total_count (validated d0) _ hk hg4.2 hs4, countV_congr (validated d0) hg4.1]
    exact countV_three d0 hnd n e m hn he hm

theorem empty_submit_leaves_three_annotations_witness :
    countErrors (validateForm (run [Event.submit]
      { form := grouped "" "" "", timers := [] }).form).state = 3 :=
  (empty_submit_leaves_three_annotations (grouped "" "" "") [Event.submit] 1 2 3
    (by decide) (by decide) (by decide) (by decide) (by decide) (by decide)
    (by decide) (by decide) (by decide)).2.2.1

/-- C4 fails as stated: when the three controls are children of the form itself, submitting
them empty leaves a single annotation, because `showError` on each control first removes the
annotation just added for the previous one. -/
theorem shared_parent_leaves_one_annotation :
    formDataGet flat "name" = some [] ∧ formDataGet flat "email" = some [] ∧
    formDataGet flat "message" = some [] ∧ errorTexts flat = [] ∧
    (handleSubmit { form := flat, timers := [] }).value? = some () ∧
    errorTexts (handleSubmit { form := flat, timers := [] }).state.form
      = ["Message is required"] := by
  decide

/-- C5, as the code has it: take any sequence of rounds in which the user acts on the controls,
makes a submission that passes validation, and the timeout of that submission fires before
the next round begins. In the last round the submission sets the submit control to the
confirmation label and disables it, and once its timeout has fired the control shows the label
it had before the first submission, is enabled, no timeout is pending, and every control holds
its default value. -/
theorem success_display_reverts (s : State) (b : Button) (rounds : List (List Event))
    (edits : List Event) (hb : firstSubmit s.form = some b) (ht : s.timers = [])
    (hr : validRounds (rounds ++ [edits]) s = true) :
    firstSubmit (step Event.submit (run edits (runRounds rounds s))).form
        = some { typeAttr := b.typeAttr, textContent := "Message Sent!",
                 background := "var(--color-success-500)", disabled := true } ∧
    firstSubmit (runRounds (rounds ++ [edits]) s).form
        = some { typeAttr := b.typeAttr, textContent := b.textContent, background := "",
                 disabled := false } ∧
    (runRounds (rounds ++ [edits]) s).timers = [] ∧
    ∀ f ∈ fields (runRounds (rounds ++ [edits]) s).form, f.value = f.defaultValue := by
  have split : ∀ (rs : List (List Event)) (s : State), validRounds (rs ++ [edits]) s = true →
      validRounds rs s = true ∧ edits.all isEdit = true ∧
        (validateForm (run edits (runRounds rs s)).form).value? = some true := by
    intro rs
    induction rs with
    | nil =>
      intro s h
      simp only [List.nil_append, validRounds, Bool.and_eq_true, beq_iff_eq] at h
      exact ⟨rfl, h.1.1, h.1.2⟩
    | cons r rs ih =>
      intro s h
      simp only [List.cons_append, validRounds, Bool.and_eq_true, beq_iff_eq] at h
      obtain ⟨h1, h2⟩ := h
      obtain ⟨a, b, c⟩ := ih _ h2
      refine ⟨?_, b, c⟩
      simp only [validRounds, Bool.and_eq_true, beq_iff_eq]
      exact ⟨h1, a⟩
  obtain ⟨h1, h2, h3⟩ := split rounds s hr
  obtain ⟨c, hc, e1, e2, e3⟩ := runRounds_button rounds s b hb ht h1
  have h := submitRound_spec edits (runRounds rounds s) c hc e3 h2 h3
  have e : runRounds (rounds ++ [edits]) s = submitRound edits (runRounds rounds s) := by
    unfold runRounds
    rw [List.foldl_append]
    rfl
  rw [e]
  refine ⟨?_, ?_, h.2.2.2.1, h.2.2.2.2⟩
  · rw [h.1, ← e2]
  · rw [h.2.2.1, ← e1, ← e2]

theorem success_display_reverts_witness :
    firstSubmit (runRounds ([fill] ++ [fill]) { form := grouped "" "" "", timers := [] }).form
      = some { typeAttr := "submit", textContent := "Send", background := "",
               disabled := false } :=
  (success_display_reverts { form := grouped "" "" "", timers := [] } sendButton [fill] fill
    (by decide) (by decide) (by decide)).2.1

/-- C5 fails as stated: two valid submissions made before any timeout fires leave the submit
control, once both timeouts have fired, with the confirmation label instead of its original
label, because the second submission captured the label the first one had set. -/
theorem overlapping_submissions_keep_confirmation_label :
    firstSubmit (grouped "Ann" "a@b.com" "hello world") = some sendButton ∧
    (run [Event.submit, Event.submit]
      { form := grouped "Ann" "a@b.com" "hello world", timers := [] }).timers
        = ["Send", "Message Sent!"] ∧
    (run [Event.submit, Event.submit, Event.timer, Event.timer]
      { form := grouped "Ann" "a@b.com" "hello world", timers := [] }).timers = [] ∧
    firstSubmit (run [Event.submit, Event.submit, Event.timer, Event.timer]
      { form := grouped "Ann" "a@b.com" "hello world", timers := [] }).form
        = some { typeAttr := "submit", textContent := "Message Sent!", background := "",
                 disabled := false } := by
  decide

/-- C7: the code raises where a silent no-op is specified. The constructor of
`ThemeManager` raises a `TypeError` when the toggle exists without its icon element;
submitting a contact form without a control named `name` raises; a valid submission of a form
without a submit button raises. -/
theorem missing_elements_raise :
    (ThemeManager.new toggleWithoutIcon).error? = some typeError ∧
    (handleSubmit { form := withoutName, timers := [] }).error? = some typeError ∧
    (validateForm withoutButton).value? = some true ∧
    (handleSubmit { form := withoutButton, timers := [] }).error? = some typeError := by
  decide

/-- Where the loaded form shows no annotation and the parent element of each of `#name`,
`#email`, `#message` contains none of the other two, the parent of each of these controls
holds at most one annotation in every state reached by edits, blurs, submissions and
timeouts. -/
theorem separate_parents_hold_one_annotation (d0 : Dom) (evs : List Event) (v : Nat)
    (hsep : separate (validated d0) d0 = true) (h0 : errorTexts d0 = [])
    (hv : validated d0 v = true) :
    ∀ l ∈ levels (run evs { form := d0, timers := [] }).form,
      isChild v l = true → countErrors l ≤ 1 := by
  intro l hl hc
  have hg := good_run d0 hsep evs { form := d0, timers := [] } (good_initial d0 h0)
  exact excess_levels (validated d0) _ hg.2 l hl (isChild_hasVChild _ v hv l hc)

/-- C8: the code keeps two annotations of one field. With the message control a child of the
form and the other two controls in wrappers inside the form, the first submission of the
empty form leaves the annotations of the email and the message control; at the second
submission the loop commented as clearing all previous errors removes only the first of
them and leaves `Message is required`, and `showError` on the message control then removes
the fresh annotation of the name control and appends a second `Message is required` next to
the first. -/
theorem nested_parents_duplicate_annotation :
    errorTexts nested = [] ∧
    errorTexts (run [Event.submit] { form := nested, timers := [] }).form
      = ["Email is required", "Message is required"] ∧
    errorTexts (clearAll (run [Event.submit] { form := nested, timers := [] }).form)
      = ["Message is required"] ∧
    isChild 3 (run [Event.submit, Event.submit] { form := nested, timers := [] }).form = true ∧
    childErrors (run [Event.submit, Event.submit] { form := nested, timers := [] }).form
      = ["Message is required", "Message is required"] ∧
    errorTexts (run [Event.submit, Event.submit] { form := nested, timers := [] }).form
      = ["Email is required", "Message is required", "Message is required"] := by
  decide

end Contract

section ThemeContract

open ThemeManager Example

/-- C9, as the code has it: when the preference slot is absent, empty, `light` or `dark` at
page load, the theme after construction and any number of toggles is `light` or `dark`
(`light` right after construction when the slot is absent), a toggle changes it to the other
mode, and two toggles restore it. -/
theorem theme_is_a_mode (p : Page) (n : Nat) (h : ValidSlot p.storage) :
    IsMode (toggles n (ThemeManager.new p).state).theme ∧
    (p.storage = none → (ThemeManager.new p).state.theme = "light") ∧
    (toggle (toggles n (ThemeManager.new p).state)).state.theme ≠
      (toggles n (ThemeManager.new p).state).theme ∧
    IsMode (toggle (toggles n (ThemeManager.new p).state)).state.theme ∧
    (toggle (toggle (toggles n (ThemeManager.new p).state)).state).state.theme =
      (toggles n (ThemeManager.new p).state).theme := by
  have h0 : IsMode (ThemeManager.new p).state.theme := by
    rw [(new_state p).1]
    rcases h with h | h | h | h <;> rw [h] <;> simp [getItemOr, IsMode]
  have hn := toggles_mode n _ h0
  refine ⟨hn, ?_, ?_, toggle_mode _, toggle_twice _ hn⟩
  · intro hs; rw [(new_state p).1, hs]; rfl
  · rw [toggle_theme]
    rcases hn with hn | hn <;> simp [hn]

theorem theme_is_a_mode_witness :
    IsMode (toggles 3 (ThemeManager.new
      { storage := none, dataTheme := none, hasToggle := true, icon := some "" }).state).theme :=
  (theme_is_a_mode { storage := none, dataTheme := none, hasToggle := true, icon := some "" } 3
    (Or.inl rfl)).1

/-- C9 fails as stated: with `blue` in the preference slot the theme applied by the
constructor is `blue`, neither mode, and two toggles lead to `dark`, not back to it. -/
theorem stored_other_string_is_applied :
    (ThemeManager.new bluePage).state.theme = "blue" ∧
    (ThemeManager.new bluePage).state.page.dataTheme = some "blue" ∧
    ¬ IsMode (toggles 0 (ThemeManager.new bluePage).state).theme ∧
    (toggle (toggle (ThemeManager.new bluePage).state).state).state.theme = "dark" := by
  unfold IsMode
  decide

/-- C10: after construction and any sequence of `setTheme` and `toggle` calls the `data-theme`
attribute and the stored preference both equal the theme in memory, and applying a theme a
second time changes nothing. -/
theorem theme_attribute_mirrors_storage (p : Page) (cs : List Call) (t : String) :
    Mirrored (calls cs (ThemeManager.new p).state) ∧
      (setTheme t (setTheme t (calls cs (ThemeManager.new p).state)).state).state
        = (setTheme t (calls cs (ThemeManager.new p).state)).state :=
  ⟨calls_mirrored cs _ (new_state p).2, setTheme_idem t _⟩

end ThemeContract

section NavContract

open MobileNav Example

/-- C6, as the code has it: in every state, after the listeners of a click have run, the menu
is in the opposite state when the toggle control is the one such element on the path, no
navigation link is on it, and the target is not outside an existing navigation container (a
second such click restores the state); it is closed when a navigation link is on the path and
the toggle is not; it is closed when a navigation container exists and the target is outside
it; and nothing changes when neither toggle nor link is on the path and the target is not
outside the container. Only the last part needs the classes to agree beforehand: when the
`active` class of the two elements matched the state before the click, it matches it
afterwards. -/
theorem click_open_state (c : Click) (s : State) :
    (toggleCount c = 1 → onNavLink c = false → outsideNav c = false → s.toggleEl.isSome = true →
        (click c s).isOpen = !s.isOpen ∧ (click c (click c s)).isOpen = s.isOpen) ∧
    (onNavLink c = true → onToggle c = false → (click c s).isOpen = false) ∧
    (outsideNav c = true → (click c s).isOpen = false) ∧
    (onToggle c = false → onNavLink c = false → outsideNav c = false → click c s = s) ∧
    (synced s = true → synced (click c s) = true) := by
  refine ⟨?_, ?_, ?_, ?_, ?_⟩
  · intro h1 hl ho ht
    have key : ∀ s : State, s.toggleEl.isSome = true → (click c s).isOpen = !s.isOpen := by
      intro s ht
      unfold click
      rw [documentListener_inside c _ ho]
      have := pathFold_toggles c.path s hl ht
      unfold toggleCount at h1
      rw [h1] at this
      simpa using this
    have ht2 : (click c s).toggleEl.isSome = true := by
      unfold click
      rw [documentListener_inside c _ ho]
      exact pathFold_toggleEl c.path s ht
    refine ⟨key s ht, ?_⟩
    rw [key _ ht2, key s ht]
    simp
  · intro hl ht
    have h := (pathFold_links c.path s ht).1
    unfold onNavLink at hl
    rw [hl] at h
    simp only [if_true] at h
    unfold click documentListener
    split
    · exact close_isOpen _
    · exact h
  · intro ho
    exact documentListener_outside c _ ho
  · intro ht hl ho
    unfold click
    rw [documentListener_inside c _ ho]
    exact (pathFold_links c.path s ht).2 hl
  · intro hs
    exact documentListener_synced c _ (pathFold_synced c.path s hs)

theorem click_open_state_witness :
    (click toggleInsideNav (MobileNav.new (some true) (some false))).isOpen = true ∧
    (click linkClick (toggle (MobileNav.new (some false) (some false)))).isOpen = false ∧
    (click bodyClick (toggle (MobileNav.new (some false) (some false)))).isOpen = false ∧
    click navClick (toggle (MobileNav.new (some false) (some false)))
      = toggle (MobileNav.new (some false) (some false)) ∧
    synced (click toggleInsideNav (MobileNav.new (some false) (some false))) = true :=
  ⟨((click_open_state toggleInsideNav (MobileNav.new (some true) (some false))).1
      (by decide) (by decide) (by decide) (by decide)).1,
   (click_open_state linkClick (toggle (MobileNav.new (some false) (some false)))).2.1
      (by decide) (by decide),
   (click_open_state bodyClick (toggle (MobileNav.new (some false) (some false)))).2.2.1
      (by decide),
   (click_open_state navClick (toggle (MobileNav.new (some false) (some false)))).2.2.2.1
      (by decide) (by decide) (by decide),
   (click_open_state toggleInsideNav (MobileNav.new (some false) (some false))).2.2.2.2
      (by decide)⟩

/-- C6 fails as stated: when the toggle control lies outside an existing navigation container,
a click on it while the menu is closed leaves the menu closed, because the document listener
closes what the toggle listener has just opened. -/
theorem toggle_outside_nav_stays_closed :
    onToggle toggleOutsideNav = true ∧
    (MobileNav.new (some false) (some false)).isOpen = false ∧
    (click toggleOutsideNav (MobileNav.new (some false) (some false))).isOpen = false := by
  decide

end NavContract

end Brisko
